import Mathlib

/-!
Shallow embedding of the SDI-12 data-recorder protocol engine of the
lixpaulian/dacq repository (the v1.5.x revision of `src/sdi-12-dr.cpp`,
which is the first of the two revisions concatenated in that file, together
with `dacq.cpp` / `dacq.h` / `sdi-12-dr.h`).

Modelling conventions:
- bytes and characters are `Nat` values below 256 (`Byte`);
- the serial wire is a script, a list of `WireEv` events, one per inner
  attempt of `sdi12_dr::transaction`: a read timeout, a write error, or a
  complete frame (the bytes the tty delivered, terminated by CR LF);
- the C float / int conversions `strtof` and `atoi` are modelled over exact
  decimal values / integers, which is faithful for everything the engine
  inspects (conversion success, comparison against zero, and cursor
  advancement);
- RTOS facilities (mutex acquisition, semaphore post, termios calls) are
  modelled as boolean inputs telling whether the call succeeded;
- the caller-owned `data` / `status` arrays are modelled as total maps
  `Nat → DecVal` / `Nat → Byte`, so that stores past the nominal capacity (which
  the C code can perform) remain observable;
- the `error` member of class `dacq` is modelled by the `ErrNum` value
  threaded through each operation (`error = &err_[e]` becomes `error := e`).
-/

namespace Sdi12

/-- A byte / C char, as a natural number. -/
abbrev Byte := Nat

/-- The `err_num_t` enumeration of `dacq.h`.  The revision of `dacq.h`
matching the v1.5.x driver is not in the source tree (the tree holds an
older revision without `tty_error`); the list below is the spec's §7 list,
which adds `TtyError` (used by `sdi12_dr::transaction`) to the older enum. -/
inductive ErrNum
  | ok
  | ttyInUse
  | ttyOpen
  | ttyAttr
  | ttyError
  | dacqBusy
  | timeout
  | unexpectedAnswer
  | sensorBusy
  | tooManyRequests
  | invalidIndex
  | crcError
  | conversionToFloatError
  | noSensorData
  | setTimeError
  | bufferTooSmall
  | setAcqIntervalFailed
  | initialisationRequired
deriving DecidableEq, Repr

/-- `dacq::STATUS_OK`. -/
def STATUS_OK : Byte := 0

/-- `dacq::STATUS_BIT_MISSING`. -/
def STATUS_BIT_MISSING : Byte := 1

/-- The `method_t` enumeration of `sdi-12-dr.h`. -/
inductive Method
  | measure
  | concurrent
  | continuous
  | verify
  | data
deriving DecidableEq, Repr

/-- The ASCII value of a `method_t` enumerator (`'M'`, `'C'`, `'R'`, `'V'`, `'D'`). -/
def Method.char : Method → Byte
  | .measure => 77
  | .concurrent => 67
  | .continuous => 82
  | .verify => 86
  | .data => 68

/-- The `sdi12_t` sensor descriptor of `sdi-12-dr.h` (`max_waiting` is
omitted: it is never read by the modelled code). -/
structure Sdi12T where
  addr : Byte
  method : Method
  index : Byte
  use_crc : Bool
deriving DecidableEq, Repr

/-! ## CRC (`sdi12_dr::calc_crc`, lines 700-721) -/

/-- One shift step of the CRC loop body: if the low bit is set, shift right
and xor with the reflected polynomial 0xA001, else just shift right. -/
def crcShift (v : Nat) : Nat :=
  if v % 2 = 1 then (v / 2) ^^^ 0xA001 else v / 2

/-- `sdi12_dr::calc_crc`: fold each byte into the 16-bit accumulator (xor,
then eight shift steps).  All arithmetic is `uint16_t`; the masks keep
arbitrary `Nat` inputs in range. -/
def calc_crc (initial : Nat) (buff : List Byte) : Nat :=
  buff.foldl (fun acc b => crcShift^[8] ((acc % 65536) ^^^ (b % 256))) (initial % 65536)

/-- The CRC value the v1.5.x `get_data` reassembles from the three CRC
characters of a response of length `count`: each character is masked with
0x3F; the first is shifted left by 12, the second by 6.  The result is
`uint16_t`, so the top two bits of the first character's 6-bit group are
truncated away (`(c & 0x3F) << 12` keeps only `c & 0x0F` mod 2^16). -/
def incoming_crc (buff : List Byte) (count : Nat) : Nat :=
  (((buff.getD (count - 5) 0) &&& 0x3F) <<< 12
    + ((buff.getD (count - 4) 0) &&& 0x3F) <<< 6
    + ((buff.getD (count - 3) 0) &&& 0x3F)) % 65536

/-! ## Float and integer scanning -/

/-- Is `c` an ASCII decimal digit. -/
def isDigit (c : Byte) : Bool := 48 ≤ c && c ≤ 57

/-- Decimal value of a digit string. -/
def digitsVal (l : List Byte) : Nat :=
  l.foldl (fun a c => a * 10 + (c - 48)) 0

/-- Length of the sign prefix a `strtof` scan consumes. -/
def sgnLen (s : List Byte) : Nat := if s.headD 0 = 43 ∨ s.headD 0 = 45 then 1 else 0

/-- The integer digits of a `strtof` scan. -/
def intPart (s : List Byte) : List Byte := (s.drop (sgnLen s)).takeWhile isDigit

/-- What remains after the sign and the integer digits. -/
def afterInt (s : List Byte) : List Byte := (s.drop (sgnLen s)).drop (intPart s).length

/-- Whether a decimal point follows the integer digits. -/
def hasDot (s : List Byte) : Bool := (afterInt s).headD 0 = 46

/-- The fractional digits of a `strtof` scan (empty when there is no dot). -/
def fracPart (s : List Byte) : List Byte :=
  if hasDot s then ((afterInt s).drop 1).takeWhile isDigit else []

/-- The exact value of a scanned decimal literal, `num / 10 ^ exp`.
C float rounding is outside the claims; the engine only ever compares a
parsed value against zero, which for this representation is `num = 0`. -/
structure DecVal where
  num : Int
  exp : Nat
deriving DecidableEq, Repr

/-- Model of C `strtof` as used on SDI-12 data payloads: an optional sign,
integer digits, and an optional decimal point with fractional digits
(payloads carry no whitespace, infinities, NaNs or exponents).  Returns the
parsed value and the number of characters consumed; when nothing can be
converted it returns the zero value with 0 consumed, matching `strtof`
leaving `endptr` at the input pointer and returning 0. -/
def strtof (s : List Byte) : DecVal × Nat :=
  if (intPart s).length = 0 ∧ (fracPart s).length = 0 then (⟨0, 0⟩, 0)
  else
    ((if s.headD 0 = 45 then
        ⟨-((digitsVal (intPart s) * 10 ^ (fracPart s).length + digitsVal (fracPart s) : Nat) : Int),
          (fracPart s).length⟩
      else
        ⟨((digitsVal (intPart s) * 10 ^ (fracPart s).length + digitsVal (fracPart s) : Nat) : Int),
          (fracPart s).length⟩ : DecVal),
      sgnLen s + (intPart s).length + (if hasDot s then 1 + (fracPart s).length else 0))

/-- Model of C `atoi` on the sliced response fields of `start_measurement`:
optional sign followed by decimal digits. -/
def atoi (s : List Byte) : Int :=
  match s with
  | 45 :: r => -(digitsVal (r.takeWhile isDigit) : Int)
  | 43 :: r => (digitsVal (r.takeWhile isDigit) : Int)
  | _ => (digitsVal (s.takeWhile isDigit) : Int)

/-- Pointwise array update for the modelled `data` / `status` arrays. -/
def upd {α : Type} (f : Nat → α) (i : Nat) (v : α) : Nat → α :=
  fun j => if j = i then v else f j

/-! ## The float-parsing do/while of `get_data` (lines 648-659)

The loop repeatedly converts a float, stores it in `data[parsed]`, and on
success marks `status[parsed]` OK and increments `parsed`, until the cursor
reaches the terminating NUL or a conversion fails.  It is modelled with a
fuel argument for structural recursion; every successful iteration consumes
at least one character (`strtof_val_of_consumed_zero`), so a fuel of
`payload.length + 1` never runs out (`parseLoop_fuel` below shows any
sufficient fuel yields the same result). -/

/-- State threaded through the parse loop: the C locals `parsed` and the
caller arrays, plus the `error` member. -/
structure PSt where
  parsed : Nat
  data : Nat → DecVal
  status : Nat → Byte
  error : ErrNum

/-- The do/while parse loop of `get_data`.  Note that the failed conversion
still stores the (zero) value at `data[parsed]`, exactly as the C does, and
does not touch `status`. -/
def parseLoop : Nat → List Byte → PSt → PSt
  | 0, _, st => st
  | fuel+1, r, st =>
    if (strtof r).1.num = 0 ∧ (strtof r).2 = 0 then
      { st with data := upd st.data st.parsed (strtof r).1,
                error := .conversionToFloatError }
    else if r.drop (strtof r).2 = [] then
      { st with data := upd st.data st.parsed (strtof r).1,
                status := upd st.status st.parsed STATUS_OK,
                parsed := st.parsed + 1 }
    else
      parseLoop fuel (r.drop (strtof r).2)
        { st with data := upd st.data st.parsed (strtof r).1,
                  status := upd st.status st.parsed STATUS_OK,
                  parsed := st.parsed + 1 }

/-! ## The wire and `sdi12_dr::transaction` (lines 336-436) -/

/-- One wire outcome per inner attempt of `transaction`: the read timed out
with no (complete) frame, the tty write failed, or a complete CR-LF
terminated frame was read. -/
inductive WireEv
  | timeout
  | writeError
  | frame (f : List Byte)
deriving DecidableEq, Repr

/-- Observable result of one `transaction` call: the returned count, the
error record it left in `error`, the caller's buffer content (the frame
truncated by `strncpy` to the buffer capacity), and the unconsumed wire
script. -/
structure TxRes where
  count : Int
  err : ErrNum
  buff : List Byte
  rest : List WireEv
deriving DecidableEq, Repr

/-- The inner retry loop of `transaction` (up to 3 attempts): a write error
breaks out with `tty_error`, a valid frame breaks out with `ok` and the
frame copied (truncated to `len`), and timeouts retry; when all attempts
time out the result is `timeout` with a non-positive count. -/
def txAttempts : Nat → Nat → List WireEv → TxRes
  | 0, _, evs => { count := 0, err := .timeout, buff := [], rest := evs }
  | _+1, _, [] => { count := 0, err := .timeout, buff := [], rest := [] }
  | n+1, len, e :: rest =>
    match e with
    | .writeError => { count := -1, err := .ttyError, buff := [], rest := rest }
    | .timeout => txAttempts n len rest
    | .frame f => { count := (f.length : Int), err := .ok, buff := f.take len, rest := rest }

/-- The bus bookkeeping consulted by the break decision: `last_sdi_addr_`
and `last_sdi_time_`. -/
structure Bus where
  lastAddr : Byte
  lastTime : Nat
deriving DecidableEq, Repr

/-- Result of a full `transaction` call, including whether a break was
transmitted. -/
structure TxFull where
  breakSent : Bool
  count : Int
  err : ErrNum
  buff : List Byte
  rest : List WireEv
  bus : Bus
deriving DecidableEq, Repr

/-- `sdi12_dr::transaction`: a break is sent iff the command's first byte
differs from `last_sdi_addr_` or more than 85 ms elapsed since
`last_sdi_time_`; then `last_sdi_addr_` is replaced and the inner attempt
loop runs.  (`last_sdi_time_` is further refreshed during the exchange by
`sysclock.now ()`; the model takes the clock value per call, so the
returned bus records the call time.) -/
def transaction (bus : Bus) (now : Nat) (cmd : List Byte) (len : Nat)
    (evs : List WireEv) : TxFull :=
  let t := txAttempts 3 len evs
  { breakSent := decide (bus.lastAddr ≠ cmd.headD 0) || decide (85 < now - bus.lastTime),
    count := t.count, err := t.err, buff := t.buff, rest := t.rest,
    bus := { lastAddr := cmd.headD 0, lastTime := now } }

/-- A wire script is nice when every frame on it is nonempty (the read loop
of `transaction` cannot deliver an empty frame: it needs at least CR LF). -/
def NiceEvs (evs : List WireEv) : Prop :=
  ∀ f, WireEv.frame f ∈ evs → f ≠ []

/-! ## `dacq::open` (dacq.cpp, lines 198-250) -/

/-- `dacq::open`: fails with `tty_in_use` when already open, `tty_open`
when the device cannot be opened, `tty_attr` when getting or setting the
attributes fails, and otherwise succeeds with `ok`; every exit writes
`error`. -/
def dacq_open (inUse openOk getOk setOk : Bool) : Bool × ErrNum :=
  if inUse then (false, .ttyInUse)
  else if !openOk then (false, .ttyOpen)
  else if !getOk then (false, .ttyAttr)
  else if !setOk then (false, .ttyAttr)
  else (true, .ok)

/-! ## `sdi12_dr::get_info` (lines 73-129) -/

/-- Result of `get_info`: the returned flag, the error record, the content
of the caller's buffer, the list of commands issued on the bus (for the
no-transaction claim), and the unconsumed wire script. -/
structure InfoRes where
  result : Bool
  error : ErrNum
  info : List Byte
  cmds : List (List Byte)
  rest : List WireEv

/-- Position of the first CR LF pair in the C string held in a byte list:
`strstr` with the two-byte needle runs on the `strncpy` copy `transaction`
made, and both `strncpy` and `strstr` stop at the first NUL byte, so a CR
LF pair behind an embedded NUL is never found. -/
def findCRLF : List Byte → Option Nat
  | [] => none
  | c :: rest =>
    if c = 0 then none
    else if c = 13 ∧ rest.head? = some 10 then some 0
    else (findCRLF rest).map (· + 1)

/-- Record the issued command in front of a later iteration's result. -/
def consCmd (c : List Byte) (r : InfoRes) : InfoRes :=
  { r with cmds := c :: r.cmds }

/-- The retry loop of `get_info`: each attempt issues `aI!`; a response
whose first byte is not the address records `unexpected_answer`; on an
address match the CR of the first CR LF is replaced by NUL and the address
byte removed; a response whose copy holds no CR LF (possible when `strncpy`
truncated the frame to the buffer, or when a NUL byte inside the frame cut
the copy short of the terminator) just retries, keeping the error
`transaction` left. -/
def get_info_loop (id : Byte) (len : Nat) : Nat → ErrNum → List WireEv → InfoRes
  | 0, e, evs => { result := false, error := e, info := [], cmds := [], rest := evs }
  | n+1, _, evs =>
    if 0 < (txAttempts 3 len evs).count then
      if (txAttempts 3 len evs).buff.headD 0 ≠ id then
        consCmd [id, 73, 33]
          (get_info_loop id len n .unexpectedAnswer (txAttempts 3 len evs).rest)
      else
        match findCRLF (txAttempts 3 len evs).buff with
        | some p =>
          { result := true, error := (txAttempts 3 len evs).err,
            info := ((txAttempts 3 len evs).buff.take p).drop 1,
            cmds := [[id, 73, 33]], rest := (txAttempts 3 len evs).rest }
        | none =>
          consCmd [id, 73, 33]
            (get_info_loop id len n (txAttempts 3 len evs).err (txAttempts 3 len evs).rest)
    else
      consCmd [id, 73, 33]
        (get_info_loop id len n (txAttempts 3 len evs).err (txAttempts 3 len evs).rest)

/-- `sdi12_dr::get_info`: requires `len > 36` (else `buffer_too_small`
before any bus traffic), takes the mutex (else `dacq_busy`), then runs up
to `retries_with_break = 3` attempts; on failure the buffer is emptied. -/
def get_info (id : Byte) (len : Nat) (mutexOk : Bool) (evs : List WireEv) : InfoRes :=
  if 36 < len then
    if mutexOk then get_info_loop id len 3 .ok evs
    else { result := false, error := .dacqBusy, info := [], cmds := [], rest := evs }
  else { result := false, error := .bufferTooSmall, info := [], cmds := [], rest := evs }

/-! ## `sdi12_dr::change_id` (lines 137-177) -/

/-- Result of `change_id`. -/
structure CidRes where
  result : Bool
  error : ErrNum
  rest : List WireEv

/-- The retry loop of `change_id`: each attempt issues `aAb!` (the command
bytes do not influence the modelled wire); success requires the response's
first byte to equal the new address, otherwise `unexpected_answer` is
recorded and the attempt retried. -/
def change_id_loop (newId : Byte) : Nat → ErrNum → List WireEv → CidRes
  | 0, e, evs => { result := false, error := e, rest := evs }
  | n+1, _, evs =>
    if 0 < (txAttempts 3 8 evs).count then
      if (txAttempts 3 8 evs).buff.headD 0 = newId then
        { result := true, error := (txAttempts 3 8 evs).err, rest := (txAttempts 3 8 evs).rest }
      else change_id_loop newId n .unexpectedAnswer (txAttempts 3 8 evs).rest
    else change_id_loop newId n (txAttempts 3 8 evs).err (txAttempts 3 8 evs).rest

/-- `sdi12_dr::change_id`. -/
def change_id (id newId : Byte) (mutexOk : Bool) (evs : List WireEv) : CidRes :=
  if mutexOk then change_id_loop newId 3 .ok evs
  else { result := false, error := .dacqBusy, rest := evs }

/-! ## `sdi12_dr::transparent` (lines 187-222) -/

/-- Result of `transparent`: the flag, error, the by-reference `len`, and
the buffer content. -/
structure TrRes where
  result : Bool
  error : ErrNum
  len : Int
  out : List Byte
  rest : List WireEv

/-- The retry loop of `transparent`.  Note the faithful oddity: `len` is
overwritten with the transaction result on every attempt, so after a
failed attempt the next `transaction` is called with a non-positive buffer
length (modelled through `Int.toNat`). -/
def transparent_loop (cmd : List Byte) : Nat → ErrNum → Int → List WireEv → TrRes
  | 0, e, lenCur, evs => { result := false, error := e, len := lenCur, out := cmd, rest := evs }
  | n+1, _, lenCur, evs =>
    if 0 < (txAttempts 3 lenCur.toNat evs).count then
      { result := true, error := (txAttempts 3 lenCur.toNat evs).err,
        len := (txAttempts 3 lenCur.toNat evs).count,
        out := (txAttempts 3 lenCur.toNat evs).buff,
        rest := (txAttempts 3 lenCur.toNat evs).rest }
    else transparent_loop cmd n (txAttempts 3 lenCur.toNat evs).err
      (txAttempts 3 lenCur.toNat evs).count (txAttempts 3 lenCur.toNat evs).rest

/-- `sdi12_dr::transparent`: no check whatsoever is made on the response
content (in particular not on its first byte). -/
def transparent (cmd : List Byte) (len : Int) (mutexOk : Bool) (evs : List WireEv) : TrRes :=
  if mutexOk then transparent_loop cmd 3 .ok len evs
  else { result := false, error := .dacqBusy, len := len, out := cmd, rest := evs }

/-! ## `sdi12_dr::start_measurement` (lines 445-495) -/

/-- Result of `start_measurement`: the flag, error, and the by-reference
`response_delay` and `measurements` outputs (0 when the call failed, as
`retrieve` initialises `measurements` to 0 and the failed call leaves it). -/
structure SmRes where
  result : Bool
  error : ErrNum
  delay : Int
  meas : Nat
  rest : List WireEv

/-- The measurement command built by `start_measurement` (`aM!`, `aMC!`,
`aMn!`, `aMCn!` and the C/V variants); the trailing NULs are cut by the C
`strlen`. -/
def smCmd (sdi : Sdi12T) : List Byte :=
  ([sdi.addr, sdi.method.char,
    if sdi.use_crc then 67 else if sdi.index ≠ 0 then sdi.index + 48 else 33,
    if sdi.use_crc then (if sdi.index ≠ 0 then sdi.index + 48 else 33)
      else (if sdi.index ≠ 0 then 33 else 0),
    if sdi.use_crc ∧ sdi.index ≠ 0 then 33 else 0]).takeWhile (fun c => c ≠ 0)

/-- The retry loop of `start_measurement`: a response from the wrong
address or shorter than 7 bytes records `unexpected_answer` and retries;
otherwise `measurements` is `atoi` of bytes [4, count-2) cast to `uint8_t`
and `response_delay` is `atoi` of bytes [1, 4). -/
def sm_loop (sdi : Sdi12T) : Nat → ErrNum → List WireEv → SmRes
  | 0, e, evs => { result := false, error := e, delay := 0, meas := 0, rest := evs }
  | n+1, _, evs =>
    if 0 < (txAttempts 3 32 evs).count then
      if sdi.addr ≠ (txAttempts 3 32 evs).buff.headD 0 ∨ (txAttempts 3 32 evs).count < 7 then
        sm_loop sdi n .unexpectedAnswer (txAttempts 3 32 evs).rest
      else
        { result := true, error := (txAttempts 3 32 evs).err,
          delay := atoi (((txAttempts 3 32 evs).buff.take 4).drop 1),
          meas := ((atoi (((txAttempts 3 32 evs).buff.take
            ((txAttempts 3 32 evs).count.toNat - 2)).drop 4)).emod 256).toNat,
          rest := (txAttempts 3 32 evs).rest }
    else sm_loop sdi n (txAttempts 3 32 evs).err (txAttempts 3 32 evs).rest

/-- `sdi12_dr::start_measurement`: `index ≥ 10` is rejected with
`invalid_index` before any bus traffic. -/
def start_measurement (sdi : Sdi12T) (errIn : ErrNum) (evs : List WireEv) : SmRes :=
  if sdi.index < 10 then sm_loop sdi 3 errIn evs
  else { result := false, error := .invalidIndex, delay := 0, meas := 0, rest := evs }

/-! ## `sdi12_dr::wait_for_service_request` (lines 506-578) -/

/-- `sdi12_dr::wait_for_service_request`: for the concurrent method it just
sleeps and succeeds; otherwise it succeeds iff getting and (twice) setting
the termios attributes succeeds, recording `tty_attr` on failure.  The
bytes read while polling only influence timing, never the result. -/
def wait_for_service_request (sdi : Sdi12T) (getOk set1Ok set2Ok : Bool) : Bool × ErrNum :=
  if sdi.method = .concurrent then (true, .ok)
  else if getOk then
    if set1Ok then
      if set2Ok then (true, .ok) else (false, .ttyAttr)
    else (false, .ttyAttr)
  else (false, .ttyAttr)

/-! ## `sdi12_dr::get_data` (lines 589-691) -/

/-- State threaded through `get_data`: the C locals `parsed` and `count`,
the caller arrays, the `error` member and the wire script. -/
structure GdSt where
  parsed : Nat
  data : Nat → DecVal
  status : Nat → Byte
  error : ErrNum
  count : Int
  rest : List WireEv

/-- The data command built by `get_data` (`aDn!`, or `aRn!` / `aRCn!` for
the continuous method); like `smCmd` the trailing NULs are cut. -/
def gdCmd (sdi : Sdi12T) (request : Byte) : List Byte :=
  ([sdi.addr, sdi.method.char,
    if sdi.method = .continuous ∧ sdi.use_crc then 67 else request,
    if sdi.method = .continuous ∧ sdi.use_crc then request else 33,
    if sdi.method = .continuous ∧ sdi.use_crc then 33 else 0]).takeWhile (fun c => c ≠ 0)

/-- The payload of a data frame: the address byte is skipped and the NUL
stored at `count - 5` (CRC frames) or `count - 2` cuts the CRC trailer and
the CR LF terminator. -/
def gdPayload (sdi : Sdi12T) (buff : List Byte) (count : Nat) : List Byte :=
  (buff.take (count - if sdi.use_crc then 5 else 2)).drop 1

/-- The `PSt` view of a `GdSt` (the parse loop does not see `count` or the
wire script). -/
def GdSt.toPSt (st : GdSt) : PSt :=
  { parsed := st.parsed, data := st.data, status := st.status, error := st.error }

/-- Running the float parse loop of `get_data` over a frame payload. -/
def gdParse (sdi : Sdi12T) (buff : List Byte) (count : Nat) (st : GdSt) : GdSt :=
  { st with
    parsed := (parseLoop ((gdPayload sdi buff count).length + 1) (gdPayload sdi buff count)
      st.toPSt).parsed,
    data := (parseLoop ((gdPayload sdi buff count).length + 1) (gdPayload sdi buff count)
      st.toPSt).data,
    status := (parseLoop ((gdPayload sdi buff count).length + 1) (gdPayload sdi buff count)
      st.toPSt).status,
    error := (parseLoop ((gdPayload sdi buff count).length + 1) (gdPayload sdi buff count)
      st.toPSt).error }

/-- Processing of one received data frame: the address is checked (with
`count < 6` also rejected for CRC frames) giving `unexpected_answer`; for
CRC frames the reassembled CRC is compared against `calc_crc` over the
frame minus its last five bytes, a mismatch giving `crc_error`; then the
payload runs through the float parse loop. -/
def gdAttempt (sdi : Sdi12T) (buff : List Byte) (count : Nat) (st : GdSt) : GdSt :=
  if sdi.addr ≠ buff.headD 0 ∨ (sdi.use_crc ∧ count < 6) then
    { st with error := .unexpectedAnswer }
  else if sdi.use_crc ∧ incoming_crc buff count ≠ calc_crc 0 (buff.take (count - 5)) then
    { st with error := .crcError }
  else
    gdParse sdi buff count st

/-- One attempt of the inner loop of `get_data`: run one transaction
(which sets the error member, the count, and consumes wire events) and,
when the count is positive, process the received frame. -/
def gdStep (sdi : Sdi12T) (st : GdSt) : GdSt :=
  if 0 < (txAttempts 3 84 st.rest).count then
    gdAttempt sdi (txAttempts 3 84 st.rest).buff (txAttempts 3 84 st.rest).count.toNat
      { st with error := (txAttempts 3 84 st.rest).err,
                count := (txAttempts 3 84 st.rest).count,
                rest := (txAttempts 3 84 st.rest).rest }
  else
    { st with error := (txAttempts 3 84 st.rest).err,
              count := (txAttempts 3 84 st.rest).count,
              rest := (txAttempts 3 84 st.rest).rest }

/-- The inner retry loop of `get_data` (up to `retries_with_break = 3`):
the loop exits early iff the error member is `ok` after an attempt. -/
def gdInner (sdi : Sdi12T) : Nat → GdSt → GdSt
  | 0, st => st
  | n+1, st =>
    if (gdStep sdi st).error = .ok then gdStep sdi st else gdInner sdi n (gdStep sdi st)

/-- The outer request loop of `get_data`: after the inner loop, the
continuous method stops; otherwise the loop continues (with the next D
index) while `request++ < '9'`, the count stays positive, fewer than
`measurements` values are parsed, and the error member is `ok`.  `request`
starts at `index + '0' ≥ 48`, so at most 10 iterations run and the fuel of
10 used below never binds. -/
def gdOuter (sdi : Sdi12T) (meas : Nat) : Nat → Nat → GdSt → GdSt
  | 0, _, st => st
  | fuel+1, request, st =>
    if sdi.method = .continuous then gdInner sdi 3 st
    else if request < 57 ∧ 0 < (gdInner sdi 3 st).count ∧
        (gdInner sdi 3 st).parsed < meas ∧ (gdInner sdi 3 st).error = .ok then
      gdOuter sdi meas fuel (request + 1) (gdInner sdi 3 st)
    else gdInner sdi 3 st

/-- Result of `get_data`: the flag, the by-reference `measurements`
(overwritten with `parsed` when anything was parsed), the arrays, the error
member and the unconsumed script. -/
structure GdRes where
  result : Bool
  measOut : Nat
  parsed : Nat
  data : Nat → DecVal
  status : Nat → Byte
  error : ErrNum
  rest : List WireEv

/-- The `memset (status, STATUS_BIT_MISSING, n)` of `get_data` and
`retrieve`. -/
def memsetMissing (n : Nat) (status0 : Nat → Byte) : Nat → Byte :=
  fun i => if i < n then STATUS_BIT_MISSING else status0 i

/-- The loop phase of `get_data`: memset the statuses, then run the request
loop from `index + '0'`. -/
def gdRun (sdi : Sdi12T) (data0 : Nat → DecVal) (status0 : Nat → Byte) (meas : Nat)
    (errIn : ErrNum) (evs : List WireEv) : GdSt :=
  gdOuter sdi meas 10 (sdi.index + 48)
    { parsed := 0, data := data0, status := memsetMissing meas status0, error := errIn,
      count := 0, rest := evs }

/-- `sdi12_dr::get_data`: statuses below the capacity are first all set to
`STATUS_BIT_MISSING`, the request loop runs from `index + '0'`, and the
call succeeds iff at least one value was parsed, in which case the
by-reference `measurements` is overwritten with `parsed`.  (The C
null-pointer guard on `data` / `status` has no counterpart: the modelled
arrays always exist.) -/
def get_data (sdi : Sdi12T) (data0 : Nat → DecVal) (status0 : Nat → Byte) (meas : Nat)
    (errIn : ErrNum) (evs : List WireEv) : GdRes :=
  if (gdRun sdi data0 status0 meas errIn evs).parsed ≠ 0 then
    { result := true, measOut := (gdRun sdi data0 status0 meas errIn evs).parsed,
      parsed := (gdRun sdi data0 status0 meas errIn evs).parsed,
      data := (gdRun sdi data0 status0 meas errIn evs).data,
      status := (gdRun sdi data0 status0 meas errIn evs).status,
      error := (gdRun sdi data0 status0 meas errIn evs).error,
      rest := (gdRun sdi data0 status0 meas errIn evs).rest }
  else
    { result := false, measOut := meas, parsed := 0,
      data := (gdRun sdi data0 status0 meas errIn evs).data,
      status := (gdRun sdi data0 status0 meas errIn evs).status,
      error := (gdRun sdi data0 status0 meas errIn evs).error,
      rest := (gdRun sdi data0 status0 meas errIn evs).rest }

/-! ## The concurrent request table (lines 743-877) -/

/-- One entry of `msgs_`: the copied acquisition handle (only the fields
the model observes), the copied sensor descriptor, and the absolute
deadline; a slot is free iff `sdih.addr = 0`. -/
structure Slot where
  dhCount : Nat
  hasCb : Bool
  sdih : Sdi12T
  deadline : Nat
deriving DecidableEq, Repr

/-- A freshly zeroed slot (`collect` memsets the table; the method field of
a free slot is never read). -/
def emptySlot : Slot :=
  { dhCount := 0, hasCb := false,
    sdih := { addr := 0, method := .measure, index := 0, use_crc := false }, deadline := 0 }

/-- The acquisition handle `dacq_handle_t` (only the fields the model
observes: the arrays, the capacity, the callback presence and the sensor
descriptor behind `impl`). -/
structure Handle where
  data : Nat → DecVal
  status : Nat → Byte
  data_count : Nat
  hasCb : Bool
  sdi : Sdi12T

/-- Result of `retrieve_concurrent`. -/
structure RcRes where
  result : Bool
  error : ErrNum
  msgs : List Slot
  rest : List WireEv

/-- The slot filled by a successful concurrent enqueue: the copied handle
with its count clamped to the announced number of values, the copied
descriptor, and the deadline `now + response_delay * 1000`. -/
def rcSlot (h : Handle) (errIn : ErrNum) (now : Nat) (evs : List WireEv) : Slot :=
  { dhCount := min h.data_count (start_measurement h.sdi errIn evs).meas,
    hasCb := h.hasCb, sdih := h.sdi,
    deadline := now + (start_measurement h.sdi errIn evs).delay.toNat * 1000 }

/-- `sdi12_dr::retrieve_concurrent` (lines 751-806): reject with
`sensor_busy` when any slot already holds the address; find the first free
slot (else `too_many_requests`); start the concurrent measurement; on
success copy handle and descriptor into the slot, clamp its count, set the
deadline, and post the collector semaphore (a failed post returns false
with the slot already filled and the error member untouched). -/
def retrieve_concurrent (h : Handle) (errIn : ErrNum) (msgs : List Slot)
    (semPostOk : Bool) (now : Nat) (evs : List WireEv) : RcRes :=
  if msgs.any (fun s => s.sdih.addr == h.sdi.addr) then
    { result := false, error := .sensorBusy, msgs := msgs, rest := evs }
  else
    match msgs.findIdx? (fun s => s.sdih.addr == 0) with
    | none => { result := false, error := .tooManyRequests, msgs := msgs, rest := evs }
    | some i =>
      if (start_measurement h.sdi errIn evs).result then
        if semPostOk then
          { result := true, error := (start_measurement h.sdi errIn evs).error,
            msgs := msgs.set i (rcSlot h errIn now evs),
            rest := (start_measurement h.sdi errIn evs).rest }
        else
          { result := false, error := (start_measurement h.sdi errIn evs).error,
            msgs := msgs.set i (rcSlot h errIn now evs),
            rest := (start_measurement h.sdi errIn evs).rest }
      else
        { result := false, error := (start_measurement h.sdi errIn evs).error,
          msgs := msgs, rest := (start_measurement h.sdi errIn evs).rest }

/-! ## `sdi12_dr::retrieve` (lines 230-322) -/

/-- Result of `retrieve`, with two ghost observables mirroring C events:
`parsed` (how many float conversions stored a value during this call) and
`cbCount` (how many times the user callback ran), plus `startFailed`
(the sequential path failed in `start_measurement`, i.e. before a
measurement header was parsed). -/
structure RetRes where
  result : Bool
  error : ErrNum
  data : Nat → DecVal
  status : Nat → Byte
  dataCountOut : Nat
  parsed : Nat
  cbCount : Nat
  startFailed : Bool
  msgs : List Slot
  rest : List WireEv

/-- The callback invocation at the end of `retrieve` (lines 309-312): the
callback runs exactly once when present. -/
def cbOnce (h : Handle) : Nat := if h.hasCb then 1 else 0

/-- The `measurements = std::min (dacqh->data_count, measurements)` clamp
(line 278). -/
def ph2m (h : Handle) (measAnn : Nat) : Nat := min h.data_count measAnn

/-- The method switch before collection (lines 281-285): a non-continuous
retrieve proceeds with the `data` method and index 0. -/
def ph2sdi (h : Handle) : Sdi12T :=
  if h.sdi.method ≠ .continuous then { h.sdi with method := .data, index := 0 } else h.sdi

/-- The `get_data` call of `retrieve` (line 288). -/
def ph2gd (h : Handle) (status1 : Nat → Byte) (measAnn : Nat) (errCur : ErrNum)
    (evs : List WireEv) : GdRes :=
  get_data (ph2sdi h) h.data status1 (ph2m h measAnn) errCur evs

/-- The tail of `retrieve` shared by the continuous and sequential paths
(lines 274-313): clamp `measurements` to the capacity, require it nonzero
unless continuous, switch the method to `data` and reset the index (again
unless continuous), collect via `get_data`, set the error to `ok` on
success; then overwrite `data_count` and invoke the callback. -/
def retrievePhase2 (h : Handle) (status1 : Nat → Byte) (measAnn : Nat) (sf : Bool)
    (msgs : List Slot) (errCur : ErrNum) (evs : List WireEv) : RetRes :=
  if ph2m h measAnn ≠ 0 ∨ h.sdi.method = .continuous then
    if (ph2gd h status1 measAnn errCur evs).result then
      { result := true, error := .ok,
        data := (ph2gd h status1 measAnn errCur evs).data,
        status := (ph2gd h status1 measAnn errCur evs).status,
        dataCountOut := (ph2gd h status1 measAnn errCur evs).measOut,
        parsed := (ph2gd h status1 measAnn errCur evs).parsed,
        cbCount := cbOnce h, startFailed := sf, msgs := msgs,
        rest := (ph2gd h status1 measAnn errCur evs).rest }
    else
      { result := false, error := (ph2gd h status1 measAnn errCur evs).error,
        data := (ph2gd h status1 measAnn errCur evs).data,
        status := (ph2gd h status1 measAnn errCur evs).status,
        dataCountOut := (ph2gd h status1 measAnn errCur evs).measOut,
        parsed := (ph2gd h status1 measAnn errCur evs).parsed,
        cbCount := cbOnce h, startFailed := sf, msgs := msgs,
        rest := (ph2gd h status1 measAnn errCur evs).rest }
  else
    { result := false, error := .noSensorData, data := h.data, status := status1,
      dataCountOut := 0, parsed := 0, cbCount := cbOnce h, startFailed := sf,
      msgs := msgs, rest := evs }

/-- `sdi12_dr::retrieve`: under the mutex, the statuses below the capacity
are set to `STATUS_BIT_MISSING`; the concurrent method only enqueues (and
falls out of the do/while with `result` still false, skipping the
`data_count` overwrite and the callback); the continuous method goes
straight to collection with `measurements = 0`; otherwise
`start_measurement` and `wait_for_service_request` precede collection. -/
def retrieve (h : Handle) (mutexOk : Bool) (errIn : ErrNum) (msgs : List Slot)
    (semPostOk : Bool) (getOk set1Ok set2Ok : Bool) (now : Nat)
    (evs : List WireEv) : RetRes :=
  if mutexOk then
    if h.sdi.method = .concurrent then
      { result := false, error := (retrieve_concurrent h errIn msgs semPostOk now evs).error,
        data := h.data, status := memsetMissing h.data_count h.status,
        dataCountOut := h.data_count, parsed := 0, cbCount := 0, startFailed := false,
        msgs := (retrieve_concurrent h errIn msgs semPostOk now evs).msgs,
        rest := (retrieve_concurrent h errIn msgs semPostOk now evs).rest }
    else if h.sdi.method = .continuous then
      retrievePhase2 h (memsetMissing h.data_count h.status) 0 false msgs errIn evs
    else
      if (start_measurement h.sdi errIn evs).result then
        if (wait_for_service_request h.sdi getOk set1Ok set2Ok).1 then
          retrievePhase2 h (memsetMissing h.data_count h.status)
            (start_measurement h.sdi errIn evs).meas false msgs
            (wait_for_service_request h.sdi getOk set1Ok set2Ok).2
            (start_measurement h.sdi errIn evs).rest
        else
          { result := false, error := (wait_for_service_request h.sdi getOk set1Ok set2Ok).2,
            data := h.data, status := memsetMissing h.data_count h.status,
            dataCountOut := 0, parsed := 0, cbCount := cbOnce h, startFailed := false,
            msgs := msgs, rest := (start_measurement h.sdi errIn evs).rest }
      else
        { result := false, error := (start_measurement h.sdi errIn evs).error,
          data := h.data, status := memsetMissing h.data_count h.status,
          dataCountOut := 0, parsed := 0, cbCount := cbOnce h, startFailed := true,
          msgs := msgs, rest := (start_measurement h.sdi errIn evs).rest }
  else
    { result := false, error := .dacqBusy, data := h.data, status := h.status,
      dataCountOut := h.data_count, parsed := 0, cbCount := 0, startFailed := false,
      msgs := msgs, rest := evs }

/-! ## The collector's service step (`sdi12_dr::collect`, lines 826-847) -/

/-- Result of servicing one due slot. -/
structure ColRes where
  slot : Slot
  cbInvoked : Bool
  gdSuccess : Bool
  data : Nat → DecVal
  status : Nat → Byte
  rest : List WireEv

/-- The deadline-elapsed branch of the collector thread: under the mutex it
switches the slot's method to `data`, collects via `get_data` into the
slot's handle, invokes the user callback only when collection succeeded
(and a callback is present), and always clears the slot by zeroing its
address. -/
def collectService (slot : Slot) (data0 : Nat → DecVal) (status0 : Nat → Byte)
    (evs : List WireEv) : ColRes :=
  { slot := { slot with
      dhCount := (get_data { slot.sdih with method := .data } data0 status0
        slot.dhCount .ok evs).measOut,
      sdih := { slot.sdih with method := .data, addr := 0 } },
    cbInvoked := if (get_data { slot.sdih with method := .data } data0 status0
        slot.dhCount .ok evs).result then slot.hasCb else false,
    gdSuccess := (get_data { slot.sdih with method := .data } data0 status0
      slot.dhCount .ok evs).result,
    data := (get_data { slot.sdih with method := .data } data0 status0
      slot.dhCount .ok evs).data,
    status := (get_data { slot.sdih with method := .data } data0 status0
      slot.dhCount .ok evs).status,
    rest := (get_data { slot.sdih with method := .data } data0 status0
      slot.dhCount .ok evs).rest }

/-! ## Status bookkeeping lemmas -/

/-- `StatusSpec p1 s1 p2 s2` says a collection step moved the parse counter
from `p1` to `p2 ≥ p1` and marked OK exactly the statuses in between. -/
def StatusSpec (p1 : Nat) (s1 : Nat → Byte) (p2 : Nat) (s2 : Nat → Byte) : Prop :=
  p1 ≤ p2 ∧ ∀ i, s2 i = if p1 ≤ i ∧ i < p2 then STATUS_OK else s1 i

/-- Well-formed responses for a `get_info` call: every frame the wire can
deliver fits the caller's buffer, holds no NUL byte (a NUL would cut the
`strncpy` copy short of the terminator and make `strstr` miss it) and
carries the CR LF terminator the read loop of `transaction` stopped at. -/
def InfoEvs (len : Nat) (evs : List WireEv) : Prop :=
  ∀ f, WireEv.frame f ∈ evs → f.length ≤ len ∧ 0 ∉ f ∧ ∃ g, f = g ++ [13, 10]

/-- Scripts on which every frame carries a first byte other than `a`. -/
def WrongAddr (a : Byte) (evs : List WireEv) : Prop :=
  ∀ f, WireEv.frame f ∈ evs → f.headD 0 ≠ a

/-- The acquisition handle of the C1 failing input: capacity 1, plain
sequential measurement at address `'0'`. -/
def c1handle : Handle :=
  { data := fun _ => ({ num := 0, exp := 0 } : DecVal), status := fun _ => 9, data_count := 1, hasCb := false,
    sdi := { addr := 48, method := .measure, index := 0, use_crc := false } }

/-- The wire script of the C1 failing input: the sensor answers `0M!` with
`00013` (3 values after 1 s) and `0D0!` with `0+1.5+2.5+3.5`. -/
def c1script : List WireEv :=
  [WireEv.frame [48, 48, 48, 49, 51, 13, 10],
   WireEv.frame [48, 43, 49, 46, 53, 43, 50, 46, 53, 43, 51, 46, 53, 13, 10]]

/-- Two slots are compatible when, if both are populated, their addresses
differ. -/
def SlotOk (a b : Slot) : Prop :=
  a.sdih.addr ≠ 0 → b.sdih.addr ≠ 0 → a.sdih.addr ≠ b.sdih.addr

/-- No two populated slots of the table hold the same sensor address. -/
def AddrUnique (msgs : List Slot) : Prop := msgs.Pairwise SlotOk

/-- The handle of the C8 witness: a concurrent request at address `'0'`. -/
def c8handle : Handle :=
  { data := fun _ => { num := 0, exp := 0 }, status := fun _ => 0, data_count := 4,
    hasCb := false, sdi := { addr := 48, method := .concurrent, index := 0, use_crc := false } }

/-- An already-populated slot at address `'0'`. -/
def c8slot : Slot :=
  { dhCount := 4, hasCb := false,
    sdih := { addr := 48, method := .concurrent, index := 0, use_crc := false },
    deadline := 7 }

/-- The handle of the C2 counterexample: a concurrent retrieve. -/
def c2handle : Handle :=
  { data := fun _ => { num := 0, exp := 0 }, status := fun _ => 0, data_count := 5,
    hasCb := true, sdi := { addr := 48, method := .concurrent, index := 0, use_crc := false } }

/-- The handle of the C5 witness: capacity 2, sequential M method. -/
def c5handle : Handle :=
  { data := fun _ => { num := 0, exp := 0 }, status := fun _ => 0, data_count := 2,
    hasCb := false, sdi := { addr := 48, method := .measure, index := 0, use_crc := false } }

/-- The wire script of the C5 witness: the sensor announces one value and
delivers `+1.5`. -/
def c5script : List WireEv :=
  [WireEv.frame [48, 48, 48, 48, 49, 13, 10], WireEv.frame [48, 43, 49, 46, 53, 13, 10]]

/-- The handle of the C10 witness: a sequential handle with a callback. -/
def c10handle : Handle :=
  { data := fun _ => { num := 0, exp := 0 }, status := fun _ => 0, data_count := 3,
    hasCb := true, sdi := { addr := 48, method := .measure, index := 0, use_crc := false } }

/-! ## Theorems -/

/-- If there are fractional digits then a dot was present. -/
theorem hasDot_of_fracPart_ne (s : List Byte) :
    (fracPart s).length ≠ 0 → hasDot s = true := by
  unfold fracPart
  split
  · intro _; assumption
  · intro h; simp at h

/-- If `strtof` consumed nothing, the value it produced is zero. -/
theorem strtof_val_of_consumed_zero (s : List Byte) :
    (strtof s).2 = 0 → (strtof s).1.num = 0 := by
  unfold strtof
  split
  · intro _; rfl
  · next h =>
    intro hc
    exfalso
    simp only at hc
    by_cases hd : hasDot s = true
    · rw [if_pos hd] at hc
      omega
    · rw [if_neg hd] at hc
      have hf : (fracPart s).length = 0 := by
        by_contra hne
        exact hd (hasDot_of_fracPart_ne s hne)
      exact h ⟨by omega, hf⟩

/-- Fuel above the payload length does not change the parse result. -/
theorem parseLoop_fuel (n : Nat) : ∀ m r st, r.length < n → r.length < m →
    parseLoop n r st = parseLoop m r st := by
  induction n with
  | zero => intro m r st h _; omega
  | succ n ih =>
    intro m r st hn hm
    match m with
    | 0 => omega
    | m+1 =>
      simp only [parseLoop]
      split
      · rfl
      · next hvc =>
        split
        · rfl
        · next hr =>
          have hc : (strtof r).2 ≠ 0 := by
            intro h0
            exact hvc ⟨strtof_val_of_consumed_zero r h0, h0⟩
          have hd : (r.drop (strtof r).2).length = r.length - (strtof r).2 :=
            List.length_drop _ _
          have hp : 0 < (r.drop (strtof r).2).length := List.length_pos.mpr hr
          apply ih <;> omega

/-- The parse loop only increments `parsed`, and marks OK exactly the
status entries from the old `parsed` up to the new one. -/
theorem parseLoop_status (n : Nat) : ∀ r st, st.parsed ≤ (parseLoop n r st).parsed ∧
    (∀ i, (parseLoop n r st).status i =
      if st.parsed ≤ i ∧ i < (parseLoop n r st).parsed then STATUS_OK else st.status i) := by
  induction n with
  | zero =>
    intro r st
    refine ⟨Nat.le_refl _, fun i => ?_⟩
    simp only [parseLoop]
    rw [if_neg (by omega)]
  | succ n ih =>
    intro r st
    simp only [parseLoop]
    split
    · refine ⟨Nat.le_refl _, fun i => ?_⟩
      simp only
      rw [if_neg (by omega)]
    · split
      · refine ⟨by simp only; omega, fun i => ?_⟩
        simp only [upd]
        split
        · next hcond => rw [if_pos (by omega)]
        · next hcond => rw [if_neg (by omega)]
      · obtain ⟨h1, h2⟩ := ih (r.drop (strtof r).2)
          { st with data := upd st.data st.parsed (strtof r).1,
                    status := upd st.status st.parsed STATUS_OK,
                    parsed := st.parsed + 1 }
        simp only at h1
        refine ⟨by omega, fun i => ?_⟩
        rw [h2 i]
        simp only [upd]
        by_cases hi : i = st.parsed
        · subst hi
          rw [if_neg (by omega), if_pos rfl, if_pos (by omega)]
        · rw [if_neg hi]
          by_cases hlo : st.parsed + 1 ≤ i ∧ i < (parseLoop n (r.drop (strtof r).2)
              { st with data := upd st.data st.parsed (strtof r).1,
                        status := upd st.status st.parsed STATUS_OK,
                        parsed := st.parsed + 1 }).parsed
          · rw [if_pos hlo, if_pos (by omega)]
          · rw [if_neg hlo, if_neg (by omega)]

/-- The parse loop leaves the error member alone or sets the conversion
error. -/
theorem parseLoop_error (n : Nat) : ∀ r st, (parseLoop n r st).error = st.error ∨
    (parseLoop n r st).error = .conversionToFloatError := by
  induction n with
  | zero => intro r st; exact Or.inl rfl
  | succ n ih =>
    intro r st
    simp only [parseLoop]
    split
    · exact Or.inr rfl
    · split
      · exact Or.inl rfl
      · exact ih _ _

/-- If the loop ran at least one iteration and did not fail, it parsed at
least one value. -/
theorem parseLoop_progress (n : Nat) : ∀ r st, 1 ≤ n →
    (parseLoop n r st).error ≠ .conversionToFloatError →
    st.parsed < (parseLoop n r st).parsed := by
  induction n with
  | zero => intro r st h; omega
  | succ n ih =>
    intro r st _ herr
    rw [parseLoop] at herr ⊢
    split at herr
    · exact absurd rfl herr
    · split at herr
      · next h1 h2 =>
        rw [if_neg h1, if_pos h2]
        simp only
        omega
      · next h1 h2 =>
        rw [if_neg h1, if_neg h2]
        match n with
        | 0 =>
          simp only [parseLoop] at herr ⊢
          omega
        | n+1 =>
          have := ih (r.drop (strtof r).2)
            { st with data := upd st.data st.parsed (strtof r).1,
                      status := upd st.status st.parsed STATUS_OK,
                      parsed := st.parsed + 1 } (by omega) herr
          simp only at this
          omega

/-- Frames on the unconsumed script were already on the input script. -/
theorem txAttempts_rest_mem (n len : Nat) : ∀ evs f,
    WireEv.frame f ∈ (txAttempts n len evs).rest → WireEv.frame f ∈ evs := by
  induction n with
  | zero => intro evs f h; exact h
  | succ n ih =>
    intro evs f h
    match evs with
    | [] => simp [txAttempts] at h
    | e :: rest =>
      match e with
      | .writeError => exact List.mem_cons_of_mem _ h
      | .timeout => exact List.mem_cons_of_mem _ (ih rest f h)
      | .frame g => exact List.mem_cons_of_mem _ h

/-- Niceness survives consumption by an attempt loop. -/
theorem NiceEvs_rest (n len : Nat) (evs : List WireEv) (h : NiceEvs evs) :
    NiceEvs (txAttempts n len evs).rest :=
  fun f hf => h f (txAttempts_rest_mem n len evs f hf)

/-- A successful attempt loop consumed a frame from the script and returned
its length and its truncation to the buffer capacity. -/
theorem txAttempts_ok (n len : Nat) : ∀ evs, (txAttempts n len evs).err = .ok →
    ∃ f, WireEv.frame f ∈ evs ∧ (txAttempts n len evs).count = (f.length : Int) ∧
      (txAttempts n len evs).buff = f.take len := by
  induction n with
  | zero => intro evs h; exact absurd h (by simp [txAttempts])
  | succ n ih =>
    intro evs h
    match evs with
    | [] => exact absurd h (by simp [txAttempts])
    | e :: rest =>
      match e with
      | .writeError => exact absurd h (by simp [txAttempts] at h)
      | .timeout =>
        obtain ⟨f, hm, hc, hb⟩ := ih rest h
        exact ⟨f, List.mem_cons_of_mem _ hm, hc, hb⟩
      | .frame g => exact ⟨g, List.mem_cons_self _ _, rfl, rfl⟩

/-- A positive count means the attempt loop succeeded. -/
theorem txAttempts_count_pos (n len : Nat) : ∀ evs,
    0 < (txAttempts n len evs).count → (txAttempts n len evs).err = .ok := by
  induction n with
  | zero => intro evs h; simp [txAttempts] at h
  | succ n ih =>
    intro evs h
    match evs with
    | [] => simp [txAttempts] at h
    | e :: rest =>
      match e with
      | .writeError => simp [txAttempts] at h
      | .timeout => exact ih rest h
      | .frame g => rfl

/-- On a nice script, success means a positive count. -/
theorem txAttempts_ok_pos (n len : Nat) (evs : List WireEv) (hn : NiceEvs evs)
    (h : (txAttempts n len evs).err = .ok) : 0 < (txAttempts n len evs).count := by
  obtain ⟨f, hm, hc, _⟩ := txAttempts_ok n len evs h
  have : f ≠ [] := hn f hm
  rw [hc]
  have : 0 < f.length := List.length_pos.mpr this
  omega

/-- On a nice script, a non-positive count means the error is not ok. -/
theorem txAttempts_fail_err (n len : Nat) (evs : List WireEv) (hn : NiceEvs evs)
    (h : ¬0 < (txAttempts n len evs).count) : (txAttempts n len evs).err ≠ .ok :=
  fun hok => h (txAttempts_ok_pos n len evs hn hok)

theorem StatusSpec.rfl {p : Nat} {s : Nat → Byte} : StatusSpec p s p s :=
  ⟨Nat.le_refl _, fun i => by rw [if_neg (by omega)]⟩

theorem StatusSpec.trans {p1 p2 p3 : Nat} {s1 s2 s3 : Nat → Byte}
    (h12 : StatusSpec p1 s1 p2 s2) (h23 : StatusSpec p2 s2 p3 s3) :
    StatusSpec p1 s1 p3 s3 := by
  obtain ⟨a12, b12⟩ := h12
  obtain ⟨a23, b23⟩ := h23
  refine ⟨Nat.le_trans a12 a23, fun i => ?_⟩
  rw [b23 i, b12 i]
  split_ifs <;> first | rfl | omega

/-- The parse loop satisfies the status specification. -/
theorem parseLoop_statusSpec (n : Nat) (r : List Byte) (st : PSt) :
    StatusSpec st.parsed st.status (parseLoop n r st).parsed (parseLoop n r st).status :=
  parseLoop_status n r st

/-- The parse step of an attempt satisfies the status specification. -/
theorem gdParse_statusSpec (sdi : Sdi12T) (buff : List Byte) (count : Nat) (st : GdSt) :
    StatusSpec st.parsed st.status (gdParse sdi buff count st).parsed
      (gdParse sdi buff count st).status :=
  parseLoop_statusSpec ((gdPayload sdi buff count).length + 1) (gdPayload sdi buff count)
    st.toPSt

/-- One frame attempt satisfies the status specification. -/
theorem gdAttempt_statusSpec (sdi : Sdi12T) (buff : List Byte) (count : Nat) (st : GdSt) :
    StatusSpec st.parsed st.status (gdAttempt sdi buff count st).parsed
      (gdAttempt sdi buff count st).status := by
  unfold gdAttempt
  split
  · exact StatusSpec.rfl
  · split
    · exact StatusSpec.rfl
    · exact gdParse_statusSpec sdi buff count st

/-- An attempt never touches the wire script. -/
theorem gdAttempt_rest (sdi : Sdi12T) (buff : List Byte) (count : Nat) (st : GdSt) :
    (gdAttempt sdi buff count st).rest = st.rest := by
  unfold gdAttempt
  split
  · rfl
  · split
    · rfl
    · rfl

/-- An attempt never touches the count local. -/
theorem gdAttempt_count (sdi : Sdi12T) (buff : List Byte) (count : Nat) (st : GdSt) :
    (gdAttempt sdi buff count st).count = st.count := by
  unfold gdAttempt
  split
  · rfl
  · split
    · rfl
    · rfl

/-- An ok exit from a frame attempt parsed at least one new value. -/
theorem gdAttempt_ok_progress (sdi : Sdi12T) (buff : List Byte) (count : Nat) (st : GdSt)
    (h : (gdAttempt sdi buff count st).error = .ok) :
    st.parsed < (gdAttempt sdi buff count st).parsed := by
  unfold gdAttempt at h ⊢
  split at h
  · exact absurd h (by simp)
  · split at h
    · exact absurd h (by simp)
    · next h1 h2 =>
      rw [if_neg h1, if_neg h2]
      have he : (gdParse sdi buff count st).error =
          (parseLoop ((gdPayload sdi buff count).length + 1) (gdPayload sdi buff count)
            st.toPSt).error := rfl
      rw [he] at h
      have hne : (parseLoop ((gdPayload sdi buff count).length + 1) (gdPayload sdi buff count)
          st.toPSt).error ≠ .conversionToFloatError := by
        rw [h]
        simp
      have hpr := parseLoop_progress ((gdPayload sdi buff count).length + 1)
        (gdPayload sdi buff count) st.toPSt (by omega) hne
      exact hpr

/-- One attempt satisfies the status specification. -/
theorem gdStep_statusSpec (sdi : Sdi12T) (st : GdSt) :
    StatusSpec st.parsed st.status (gdStep sdi st).parsed (gdStep sdi st).status := by
  unfold gdStep
  split
  · exact gdAttempt_statusSpec sdi (txAttempts 3 84 st.rest).buff
      (txAttempts 3 84 st.rest).count.toNat
      { st with error := (txAttempts 3 84 st.rest).err,
                count := (txAttempts 3 84 st.rest).count,
                rest := (txAttempts 3 84 st.rest).rest }
  · exact StatusSpec.rfl

/-- Frames left on the script after one attempt were on the input script. -/
theorem gdStep_rest_mem (sdi : Sdi12T) (st : GdSt) (f : List Byte)
    (h : WireEv.frame f ∈ (gdStep sdi st).rest) : WireEv.frame f ∈ st.rest := by
  unfold gdStep at h
  split at h
  · rw [gdAttempt_rest] at h
    exact txAttempts_rest_mem _ _ _ _ h
  · exact txAttempts_rest_mem _ _ _ _ h

/-- Niceness survives one attempt. -/
theorem gdStep_nice (sdi : Sdi12T) (st : GdSt) (h : NiceEvs st.rest) :
    NiceEvs (gdStep sdi st).rest :=
  fun f hf => h f (gdStep_rest_mem sdi st f hf)

/-- On a nice script, an ok exit from an attempt parsed at least one new
value. -/
theorem gdStep_ok_progress (sdi : Sdi12T) (st : GdSt) (hn : NiceEvs st.rest)
    (h : (gdStep sdi st).error = .ok) : st.parsed < (gdStep sdi st).parsed := by
  unfold gdStep at h ⊢
  split at h
  · next hc =>
    rw [if_pos hc]
    exact gdAttempt_ok_progress sdi (txAttempts 3 84 st.rest).buff
      (txAttempts 3 84 st.rest).count.toNat
      { st with error := (txAttempts 3 84 st.rest).err,
                count := (txAttempts 3 84 st.rest).count,
                rest := (txAttempts 3 84 st.rest).rest } h
  · next hc =>
    simp only at h
    exact absurd h (txAttempts_fail_err 3 84 st.rest hn hc)

/-- The inner retry loop satisfies the status specification. -/
theorem gdInner_statusSpec (sdi : Sdi12T) : ∀ (n : Nat) (st : GdSt),
    StatusSpec st.parsed st.status (gdInner sdi n st).parsed (gdInner sdi n st).status := by
  intro n
  induction n with
  | zero => intro st; exact StatusSpec.rfl
  | succ n ih =>
    intro st
    rw [gdInner]
    split
    · exact gdStep_statusSpec _ _
    · exact StatusSpec.trans (gdStep_statusSpec _ _) (ih _)

/-- Frames left on the script after the inner loop were on the input script. -/
theorem gdInner_rest_mem (sdi : Sdi12T) : ∀ (n : Nat) (st : GdSt) (f : List Byte),
    WireEv.frame f ∈ (gdInner sdi n st).rest → WireEv.frame f ∈ st.rest := by
  intro n
  induction n with
  | zero => intro st f h; exact h
  | succ n ih =>
    intro st f h
    rw [gdInner] at h
    split at h
    · exact gdStep_rest_mem _ _ _ h
    · exact gdStep_rest_mem _ _ _ (ih _ f h)

/-- Niceness survives the inner loop. -/
theorem gdInner_nice (sdi : Sdi12T) (n : Nat) (st : GdSt) (h : NiceEvs st.rest) :
    NiceEvs (gdInner sdi n st).rest :=
  fun f hf => h f (gdInner_rest_mem sdi n st f hf)

/-- On a nice script, an ok exit from the inner loop parsed at least one
new value. -/
theorem gdInner_ok_progress (sdi : Sdi12T) : ∀ (n : Nat) (st : GdSt), NiceEvs st.rest →
    (gdInner sdi (n+1) st).error = .ok →
    st.parsed < (gdInner sdi (n+1) st).parsed := by
  intro n
  induction n with
  | zero =>
    intro st hn h
    rw [gdInner] at h ⊢
    split at h
    · next hok =>
      rw [if_pos hok]
      exact gdStep_ok_progress sdi st hn h
    · next hok =>
      rw [if_neg hok]
      rw [gdInner] at h ⊢
      exact absurd h hok
  | succ n ih =>
    intro st hn h
    rw [gdInner] at h ⊢
    split at h
    · next hok =>
      rw [if_pos hok]
      exact gdStep_ok_progress sdi st hn h
    · next hok =>
      rw [if_neg hok]
      have hp := ih (gdStep sdi st) (gdStep_nice sdi st hn) h
      have hm := (gdStep_statusSpec sdi st).1
      omega

/-- The request loop satisfies the status specification. -/
theorem gdOuter_statusSpec (sdi : Sdi12T) (meas : Nat) : ∀ (fuel request : Nat) (st : GdSt),
    StatusSpec st.parsed st.status (gdOuter sdi meas fuel request st).parsed
      (gdOuter sdi meas fuel request st).status := by
  intro fuel
  induction fuel with
  | zero => intro request st; exact StatusSpec.rfl
  | succ fuel ih =>
    intro request st
    rw [gdOuter]
    split
    · exact gdInner_statusSpec sdi 3 st
    · split
      · exact StatusSpec.trans (gdInner_statusSpec sdi 3 st) (ih (request + 1) (gdInner sdi 3 st))
      · exact gdInner_statusSpec sdi 3 st

/-- Niceness survives the request loop. -/
theorem gdOuter_nice (sdi : Sdi12T) (meas : Nat) : ∀ (fuel request : Nat) (st : GdSt),
    NiceEvs st.rest → NiceEvs (gdOuter sdi meas fuel request st).rest := by
  intro fuel
  induction fuel with
  | zero => intro request st h; exact h
  | succ fuel ih =>
    intro request st h
    rw [gdOuter]
    split
    · exact gdInner_nice sdi 3 st h
    · split
      · exact ih (request + 1) (gdInner sdi 3 st) (gdInner_nice sdi 3 st h)
      · exact gdInner_nice sdi 3 st h

/-- On a nice script, an ok exit from the request loop parsed at least one
new value. -/
theorem gdOuter_ok_progress (sdi : Sdi12T) (meas : Nat) : ∀ (fuel request : Nat) (st : GdSt),
    NiceEvs st.rest → (gdOuter sdi meas (fuel+1) request st).error = .ok →
    st.parsed < (gdOuter sdi meas (fuel+1) request st).parsed := by
  intro fuel
  induction fuel with
  | zero =>
    intro request st hn h
    rw [gdOuter] at h ⊢
    by_cases hm : sdi.method = .continuous
    · rw [if_pos hm] at h ⊢
      exact gdInner_ok_progress sdi 2 st hn h
    · rw [if_neg hm] at h ⊢
      by_cases hcond : request < 57 ∧ 0 < (gdInner sdi 3 st).count ∧
          (gdInner sdi 3 st).parsed < meas ∧ (gdInner sdi 3 st).error = .ok
      · rw [if_pos hcond] at h ⊢
        rw [gdOuter] at h ⊢
        exact gdInner_ok_progress sdi 2 st hn hcond.2.2.2
      · rw [if_neg hcond] at h ⊢
        exact gdInner_ok_progress sdi 2 st hn h
  | succ fuel ih =>
    intro request st hn h
    rw [gdOuter] at h ⊢
    by_cases hm : sdi.method = .continuous
    · rw [if_pos hm] at h ⊢
      exact gdInner_ok_progress sdi 2 st hn h
    · rw [if_neg hm] at h ⊢
      by_cases hcond : request < 57 ∧ 0 < (gdInner sdi 3 st).count ∧
          (gdInner sdi 3 st).parsed < meas ∧ (gdInner sdi 3 st).error = .ok
      · rw [if_pos hcond] at h ⊢
        have hp := ih (request + 1) (gdInner sdi 3 st) (gdInner_nice sdi 3 st hn) h
        have hstep : st.parsed < (gdInner sdi 3 st).parsed :=
          gdInner_ok_progress sdi 2 st hn hcond.2.2.2
        omega
      · rw [if_neg hcond] at h ⊢
        exact gdInner_ok_progress sdi 2 st hn h

/-- Status layout after `get_data`: OK below the number of parsed values
(each written when its float conversion succeeded), the memset
`STATUS_BIT_MISSING` up to the capacity, the caller's bytes beyond. -/
theorem get_data_status (sdi : Sdi12T) (data0 : Nat → DecVal) (status0 : Nat → Byte)
    (meas : Nat) (errIn : ErrNum) (evs : List WireEv) : ∀ i,
    (get_data sdi data0 status0 meas errIn evs).status i =
      if i < (get_data sdi data0 status0 meas errIn evs).parsed then STATUS_OK
      else if i < meas then STATUS_BIT_MISSING else status0 i := by
  intro i
  obtain ⟨hmono, hst⟩ := gdOuter_statusSpec sdi meas 10 (sdi.index + 48)
    { parsed := 0, data := data0, status := memsetMissing meas status0, error := errIn,
      count := 0, rest := evs }
  simp only at hmono hst
  unfold get_data gdRun
  split
  · next hne =>
    simp only
    rw [hst i]
    simp only [memsetMissing]
    split_ifs <;> first | rfl | omega
  · next hne =>
    rw [not_ne_iff] at hne
    simp only
    rw [hst i]
    simp only [memsetMissing]
    split_ifs <;> first | rfl | omega

/-! ## Error-discipline and address-check lemmas for the facade operations -/

theorem consCmd_result (c : List Byte) (r : InfoRes) : (consCmd c r).result = r.result := rfl

theorem consCmd_error (c : List Byte) (r : InfoRes) : (consCmd c r).error = r.error := rfl

theorem consCmd_cmds (c : List Byte) (r : InfoRes) : (consCmd c r).cmds = c :: r.cmds := rfl

theorem InfoEvs.nice {len : Nat} {evs : List WireEv} (h : InfoEvs len evs) : NiceEvs evs := by
  intro f hf
  obtain ⟨-, -, g, rfl⟩ := h f hf
  simp

theorem InfoEvs.restTx {len : Nat} {evs : List WireEv} (h : InfoEvs len evs) (n l : Nat) :
    InfoEvs len (txAttempts n l evs).rest :=
  fun f hf => h f (txAttempts_rest_mem n l evs f hf)

/-- A NUL-free CR-LF-terminated byte list contains a CR LF pair the
`strstr` search reaches. -/
theorem findCRLF_append : ∀ (g : List Byte), 0 ∉ g → findCRLF (g ++ [13, 10]) ≠ none := by
  intro g
  induction g with
  | nil => intro _; simp [findCRLF]
  | cons c g ih =>
    intro h0
    rw [List.cons_append, findCRLF]
    rw [if_neg (fun hc => h0 (by subst hc; exact List.mem_cons_self 0 g))]
    split
    · simp
    · intro h
      cases hx : findCRLF (g ++ [13, 10]) with
      | none => exact ih (fun hm => h0 (List.mem_cons_of_mem c hm)) hx
      | some p => simp [hx] at h

/-- A successful `get_info` leaves the ok error record. -/
theorem get_info_loop_true_err (id : Byte) (len : Nat) :
    ∀ (n : Nat) (e : ErrNum) (evs : List WireEv),
    (get_info_loop id len n e evs).result = true →
    (get_info_loop id len n e evs).error = .ok := by
  intro n
  induction n with
  | zero => intro e evs h; exact absurd h (by simp [get_info_loop])
  | succ n ih =>
    intro e evs h
    rw [get_info_loop] at h ⊢
    by_cases hc : 0 < (txAttempts 3 len evs).count
    · rw [if_pos hc] at h ⊢
      by_cases hh : (txAttempts 3 len evs).buff.headD 0 ≠ id
      · rw [if_pos hh] at h ⊢
        rw [consCmd_error, consCmd_result] at *
        exact ih _ _ h
      · rw [if_neg hh] at h ⊢
        cases hf : findCRLF (txAttempts 3 len evs).buff with
        | some p =>
          simp only [hf]
          exact txAttempts_count_pos 3 len evs hc
        | none =>
          simp only [hf] at h ⊢
          rw [consCmd_error, consCmd_result] at *
          exact ih _ _ h
    · rw [if_neg hc] at h ⊢
      rw [consCmd_error, consCmd_result] at *
      exact ih _ _ h

/-- On well-formed responses, a failed `get_info` surfaces a non-ok
error. -/
theorem get_info_loop_false_err (id : Byte) (len : Nat) :
    ∀ (n : Nat) (e : ErrNum) (evs : List WireEv), InfoEvs len evs → (1 ≤ n ∨ e ≠ .ok) →
    (get_info_loop id len n e evs).result = false →
    (get_info_loop id len n e evs).error ≠ .ok := by
  intro n
  induction n with
  | zero =>
    intro e evs _ hne _
    rw [get_info_loop]
    rcases hne with hne | hne
    · omega
    · exact hne
  | succ n ih =>
    intro e evs hinfo _ h
    rw [get_info_loop] at h ⊢
    by_cases hc : 0 < (txAttempts 3 len evs).count
    · rw [if_pos hc] at h ⊢
      by_cases hh : (txAttempts 3 len evs).buff.headD 0 ≠ id
      · rw [if_pos hh] at h ⊢
        rw [consCmd_error, consCmd_result] at *
        exact ih .unexpectedAnswer _ (hinfo.restTx 3 len) (Or.inr (by simp)) h
      · rw [if_neg hh] at h ⊢
        cases hf : findCRLF (txAttempts 3 len evs).buff with
        | some p =>
          simp only [hf] at h
          exact absurd h (by simp)
        | none =>
          exfalso
          have hok := txAttempts_count_pos 3 len evs hc
          obtain ⟨f, hm, hcount, hbuff⟩ := txAttempts_ok 3 len evs hok
          obtain ⟨hlen, h0, g, rfl⟩ := hinfo f hm
          rw [hbuff, List.take_of_length_le hlen] at hf
          exact findCRLF_append g (fun hg => h0 (List.mem_append_left _ hg)) hf
    · rw [if_neg hc] at h ⊢
      rw [consCmd_error, consCmd_result] at *
      have herr := txAttempts_fail_err 3 len evs hinfo.nice hc
      exact ih _ _ (hinfo.restTx 3 len) (Or.inr herr) h

/-- Every command `get_info` issues is `aI!`, and at least one is issued
when at least one attempt remains. -/
theorem get_info_loop_cmds (id : Byte) (len : Nat) :
    ∀ (n : Nat) (e : ErrNum) (evs : List WireEv),
    (∀ c ∈ (get_info_loop id len n e evs).cmds, c = [id, 73, 33]) ∧
    (1 ≤ n → (get_info_loop id len n e evs).cmds ≠ []) := by
  intro n
  induction n with
  | zero =>
    intro e evs
    refine ⟨?_, ?_⟩
    · intro c hcm
      exact absurd hcm (by simp [get_info_loop])
    · omega
  | succ n ih =>
    intro e evs
    rw [get_info_loop]
    by_cases hc : 0 < (txAttempts 3 len evs).count
    · rw [if_pos hc]
      by_cases hh : (txAttempts 3 len evs).buff.headD 0 ≠ id
      · rw [if_pos hh]
        rw [consCmd_cmds]
        refine ⟨?_, by simp⟩
        intro c hcm
        rcases List.mem_cons.mp hcm with rfl | hcm
        · rfl
        · exact (ih _ _).1 c hcm
      · rw [if_neg hh]
        cases hf : findCRLF (txAttempts 3 len evs).buff with
        | some p =>
          simp only
          refine ⟨?_, by simp⟩
          intro c hcm
          rcases List.mem_singleton.mp hcm with rfl
          rfl
        | none =>
          rw [consCmd_cmds]
          refine ⟨?_, by simp⟩
          intro c hcm
          rcases List.mem_cons.mp hcm with rfl | hcm
          · rfl
          · exact (ih _ _).1 c hcm
    · rw [if_neg hc]
      rw [consCmd_cmds]
      refine ⟨?_, by simp⟩
      intro c hcm
      rcases List.mem_cons.mp hcm with rfl | hcm
      · rfl
      · exact (ih _ _).1 c hcm

theorem WrongAddr.restWrong {a : Byte} {evs : List WireEv} (h : WrongAddr a evs) (n l : Nat) :
    WrongAddr a (txAttempts n l evs).rest :=
  fun f hf => h f (txAttempts_rest_mem n l evs f hf)

/-- Truncation by at least one byte keeps the first byte. -/
theorem headD_take (f : List Byte) (n : Nat) (hn : 1 ≤ n) :
    (f.take n).headD 0 = f.headD 0 := by
  cases f with
  | nil => simp
  | cons c t =>
    match n, hn with
    | m+1, _ => simp [List.take]

/-- On a wrong-address script `get_info` never succeeds. -/
theorem get_info_loop_wrong (id : Byte) (len : Nat) (hl : 1 ≤ len) :
    ∀ (n : Nat) (e : ErrNum) (evs : List WireEv), WrongAddr id evs →
    (get_info_loop id len n e evs).result = false := by
  intro n
  induction n with
  | zero => intro e evs _; rw [get_info_loop]
  | succ n ih =>
    intro e evs hw
    rw [get_info_loop]
    by_cases hc : 0 < (txAttempts 3 len evs).count
    · rw [if_pos hc]
      have hok := txAttempts_count_pos 3 len evs hc
      obtain ⟨f, hm, hcount, hbuff⟩ := txAttempts_ok 3 len evs hok
      have hh : (txAttempts 3 len evs).buff.headD 0 ≠ id := by
        rw [hbuff, headD_take f len hl]
        exact hw f hm
      rw [if_pos hh, consCmd_result]
      exact ih _ _ (hw.restWrong 3 len)
    · rw [if_neg hc, consCmd_result]
      exact ih _ _ (hw.restWrong 3 len)

/-- A successful `change_id` leaves the ok error record. -/
theorem change_id_loop_true_err (newId : Byte) :
    ∀ (n : Nat) (e : ErrNum) (evs : List WireEv),
    (change_id_loop newId n e evs).result = true →
    (change_id_loop newId n e evs).error = .ok := by
  intro n
  induction n with
  | zero => intro e evs h; exact absurd h (by simp [change_id_loop])
  | succ n ih =>
    intro e evs h
    rw [change_id_loop] at h ⊢
    by_cases hc : 0 < (txAttempts 3 8 evs).count
    · rw [if_pos hc] at h ⊢
      by_cases hh : (txAttempts 3 8 evs).buff.headD 0 = newId
      · rw [if_pos hh] at h ⊢
        exact txAttempts_count_pos 3 8 evs hc
      · rw [if_neg hh] at h ⊢
        exact ih _ _ h
    · rw [if_neg hc] at h ⊢
      exact ih _ _ h

/-- On a nice script, a failed `change_id` surfaces a non-ok error. -/
theorem change_id_loop_false_err (newId : Byte) :
    ∀ (n : Nat) (e : ErrNum) (evs : List WireEv), NiceEvs evs → (1 ≤ n ∨ e ≠ .ok) →
    (change_id_loop newId n e evs).result = false →
    (change_id_loop newId n e evs).error ≠ .ok := by
  intro n
  induction n with
  | zero =>
    intro e evs _ hne _
    rw [change_id_loop]
    rcases hne with hne | hne
    · omega
    · exact hne
  | succ n ih =>
    intro e evs hn _ h
    rw [change_id_loop] at h ⊢
    by_cases hc : 0 < (txAttempts 3 8 evs).count
    · rw [if_pos hc] at h ⊢
      by_cases hh : (txAttempts 3 8 evs).buff.headD 0 = newId
      · rw [if_pos hh] at h
        simp at h
      · rw [if_neg hh] at h ⊢
        exact ih _ _ (NiceEvs_rest 3 8 evs hn) (Or.inr (by simp)) h
    · rw [if_neg hc] at h ⊢
      have herr := txAttempts_fail_err 3 8 evs hn hc
      exact ih _ _ (NiceEvs_rest 3 8 evs hn) (Or.inr herr) h

/-- On a wrong-address script `change_id` never succeeds. -/
theorem change_id_loop_wrong (newId : Byte) :
    ∀ (n : Nat) (e : ErrNum) (evs : List WireEv), WrongAddr newId evs →
    (change_id_loop newId n e evs).result = false := by
  intro n
  induction n with
  | zero => intro e evs _; rw [change_id_loop]
  | succ n ih =>
    intro e evs hw
    rw [change_id_loop]
    by_cases hc : 0 < (txAttempts 3 8 evs).count
    · rw [if_pos hc]
      have hok := txAttempts_count_pos 3 8 evs hc
      obtain ⟨f, hm, hcount, hbuff⟩ := txAttempts_ok 3 8 evs hok
      have hh : ¬(txAttempts 3 8 evs).buff.headD 0 = newId := by
        rw [hbuff, headD_take f 8 (by omega)]
        exact hw f hm
      rw [if_neg hh]
      exact ih _ _ (hw.restWrong 3 8)
    · rw [if_neg hc]
      exact ih _ _ (hw.restWrong 3 8)

/-- A successful `transparent` leaves the ok error record. -/
theorem transparent_loop_true_err (cmd : List Byte) :
    ∀ (n : Nat) (e : ErrNum) (lenCur : Int) (evs : List WireEv),
    (transparent_loop cmd n e lenCur evs).result = true →
    (transparent_loop cmd n e lenCur evs).error = .ok := by
  intro n
  induction n with
  | zero => intro e lenCur evs h; exact absurd h (by simp [transparent_loop])
  | succ n ih =>
    intro e lenCur evs h
    rw [transparent_loop] at h ⊢
    by_cases hc : 0 < (txAttempts 3 lenCur.toNat evs).count
    · rw [if_pos hc] at h ⊢
      exact txAttempts_count_pos 3 lenCur.toNat evs hc
    · rw [if_neg hc] at h ⊢
      exact ih _ _ _ h

/-- On a nice script, a failed `transparent` surfaces a non-ok error. -/
theorem transparent_loop_false_err (cmd : List Byte) :
    ∀ (n : Nat) (e : ErrNum) (lenCur : Int) (evs : List WireEv), NiceEvs evs →
    (1 ≤ n ∨ e ≠ .ok) → (transparent_loop cmd n e lenCur evs).result = false →
    (transparent_loop cmd n e lenCur evs).error ≠ .ok := by
  intro n
  induction n with
  | zero =>
    intro e lenCur evs _ hne _
    rw [transparent_loop]
    rcases hne with hne | hne
    · omega
    · exact hne
  | succ n ih =>
    intro e lenCur evs hn _ h
    rw [transparent_loop] at h ⊢
    by_cases hc : 0 < (txAttempts 3 lenCur.toNat evs).count
    · rw [if_pos hc] at h
      simp at h
    · rw [if_neg hc] at h ⊢
      have herr := txAttempts_fail_err 3 lenCur.toNat evs hn hc
      exact ih _ _ _ (NiceEvs_rest 3 lenCur.toNat evs hn) (Or.inr herr) h

/-- A successful `start_measurement` leaves the ok error record. -/
theorem sm_loop_true_err (sdi : Sdi12T) :
    ∀ (n : Nat) (e : ErrNum) (evs : List WireEv),
    (sm_loop sdi n e evs).result = true → (sm_loop sdi n e evs).error = .ok := by
  intro n
  induction n with
  | zero => intro e evs h; exact absurd h (by simp [sm_loop])
  | succ n ih =>
    intro e evs h
    rw [sm_loop] at h ⊢
    by_cases hc : 0 < (txAttempts 3 32 evs).count
    · rw [if_pos hc] at h ⊢
      by_cases hh : sdi.addr ≠ (txAttempts 3 32 evs).buff.headD 0 ∨
          (txAttempts 3 32 evs).count < 7
      · rw [if_pos hh] at h ⊢
        exact ih _ _ h
      · rw [if_neg hh] at h ⊢
        exact txAttempts_count_pos 3 32 evs hc
    · rw [if_neg hc] at h ⊢
      exact ih _ _ h

/-- On a nice script, a failed `start_measurement` surfaces a non-ok
error. -/
theorem sm_loop_false_err (sdi : Sdi12T) :
    ∀ (n : Nat) (e : ErrNum) (evs : List WireEv), NiceEvs evs → (1 ≤ n ∨ e ≠ .ok) →
    (sm_loop sdi n e evs).result = false → (sm_loop sdi n e evs).error ≠ .ok := by
  intro n
  induction n with
  | zero =>
    intro e evs _ hne _
    rw [sm_loop]
    rcases hne with hne | hne
    · omega
    · exact hne
  | succ n ih =>
    intro e evs hn _ h
    rw [sm_loop] at h ⊢
    by_cases hc : 0 < (txAttempts 3 32 evs).count
    · rw [if_pos hc] at h ⊢
      by_cases hh : sdi.addr ≠ (txAttempts 3 32 evs).buff.headD 0 ∨
          (txAttempts 3 32 evs).count < 7
      · rw [if_pos hh] at h ⊢
        exact ih _ _ (NiceEvs_rest 3 32 evs hn) (Or.inr (by simp)) h
      · rw [if_neg hh] at h
        simp at h
    · rw [if_neg hc] at h ⊢
      have herr := txAttempts_fail_err 3 32 evs hn hc
      exact ih _ _ (NiceEvs_rest 3 32 evs hn) (Or.inr herr) h

/-- On a wrong-address script `start_measurement` never succeeds. -/
theorem sm_loop_wrong (sdi : Sdi12T) :
    ∀ (n : Nat) (e : ErrNum) (evs : List WireEv), WrongAddr sdi.addr evs →
    (sm_loop sdi n e evs).result = false := by
  intro n
  induction n with
  | zero => intro e evs _; rw [sm_loop]
  | succ n ih =>
    intro e evs hw
    rw [sm_loop]
    by_cases hc : 0 < (txAttempts 3 32 evs).count
    · rw [if_pos hc]
      have hok := txAttempts_count_pos 3 32 evs hc
      obtain ⟨f, hm, hcount, hbuff⟩ := txAttempts_ok 3 32 evs hok
      have hh : sdi.addr ≠ (txAttempts 3 32 evs).buff.headD 0 ∨
          (txAttempts 3 32 evs).count < 7 := by
        left
        rw [hbuff, headD_take f 32 (by omega)]
        exact fun hx => hw f hm hx.symm
      rw [if_pos hh]
      exact ih _ _ (hw.restWrong 3 32)
    · rw [if_neg hc]
      exact ih _ _ (hw.restWrong 3 32)

/-- Frames left on the script by `sm_loop` were on the input script. -/
theorem sm_loop_rest_mem (sdi : Sdi12T) :
    ∀ (n : Nat) (e : ErrNum) (evs : List WireEv) (f : List Byte),
    WireEv.frame f ∈ (sm_loop sdi n e evs).rest → WireEv.frame f ∈ evs := by
  intro n
  induction n with
  | zero => intro e evs f h; exact h
  | succ n ih =>
    intro e evs f h
    rw [sm_loop] at h
    by_cases hc : 0 < (txAttempts 3 32 evs).count
    · rw [if_pos hc] at h
      by_cases hh : sdi.addr ≠ (txAttempts 3 32 evs).buff.headD 0 ∨
          (txAttempts 3 32 evs).count < 7
      · rw [if_pos hh] at h
        exact txAttempts_rest_mem 3 32 evs f (ih _ _ f h)
      · rw [if_neg hh] at h
        exact txAttempts_rest_mem 3 32 evs f h
    · rw [if_neg hc] at h
      exact txAttempts_rest_mem 3 32 evs f (ih _ _ f h)

/-- Niceness survives `start_measurement`. -/
theorem start_measurement_nice (sdi : Sdi12T) (errIn : ErrNum) (evs : List WireEv)
    (hn : NiceEvs evs) : NiceEvs (start_measurement sdi errIn evs).rest := by
  unfold start_measurement
  split
  · exact fun f hf => hn f (sm_loop_rest_mem sdi 3 errIn evs f hf)
  · exact hn

/-- A wrong-address frame is rejected by the attempt with
`unexpected_answer`, leaving everything else alone. -/
theorem gdAttempt_wrong (sdi : Sdi12T) (buff : List Byte) (count : Nat) (st : GdSt)
    (h : sdi.addr ≠ buff.headD 0) :
    gdAttempt sdi buff count st = { st with error := .unexpectedAnswer } := by
  unfold gdAttempt
  rw [if_pos (Or.inl h)]

/-- One inner attempt on a wrong-address script parses nothing. -/
theorem gdStep_wrong (sdi : Sdi12T) (st : GdSt) (hw : WrongAddr sdi.addr st.rest) :
    (gdStep sdi st).parsed = st.parsed := by
  unfold gdStep
  split
  · next hc =>
    have hok := txAttempts_count_pos 3 84 st.rest hc
    obtain ⟨f, hm, hcount, hbuff⟩ := txAttempts_ok 3 84 st.rest hok
    have hh : sdi.addr ≠ (txAttempts 3 84 st.rest).buff.headD 0 := by
      rw [hbuff, headD_take f 84 (by omega)]
      exact fun hx => hw f hm hx.symm
    rw [gdAttempt_wrong _ _ _ _ hh]
  · rfl

theorem gdStep_wrong_rest (sdi : Sdi12T) (st : GdSt) (hw : WrongAddr sdi.addr st.rest) :
    WrongAddr sdi.addr (gdStep sdi st).rest :=
  fun f hf => hw f (gdStep_rest_mem sdi st f hf)

/-- The inner loop on a wrong-address script parses nothing. -/
theorem gdInner_wrong (sdi : Sdi12T) : ∀ (n : Nat) (st : GdSt),
    WrongAddr sdi.addr st.rest → (gdInner sdi n st).parsed = st.parsed := by
  intro n
  induction n with
  | zero => intro st _; rfl
  | succ n ih =>
    intro st hw
    rw [gdInner]
    split
    · exact gdStep_wrong sdi st hw
    · rw [ih (gdStep sdi st) (gdStep_wrong_rest sdi st hw)]
      exact gdStep_wrong sdi st hw

theorem gdInner_wrong_rest (sdi : Sdi12T) (n : Nat) (st : GdSt)
    (hw : WrongAddr sdi.addr st.rest) : WrongAddr sdi.addr (gdInner sdi n st).rest :=
  fun f hf => hw f (gdInner_rest_mem sdi n st f hf)

/-- The request loop on a wrong-address script parses nothing. -/
theorem gdOuter_wrong (sdi : Sdi12T) (meas : Nat) : ∀ (fuel request : Nat) (st : GdSt),
    WrongAddr sdi.addr st.rest → (gdOuter sdi meas fuel request st).parsed = st.parsed := by
  intro fuel
  induction fuel with
  | zero => intro request st _; rfl
  | succ fuel ih =>
    intro request st hw
    rw [gdOuter]
    by_cases hm : sdi.method = .continuous
    · rw [if_pos hm]
      exact gdInner_wrong sdi 3 st hw
    · rw [if_neg hm]
      by_cases hcond : request < 57 ∧ 0 < (gdInner sdi 3 st).count ∧
          (gdInner sdi 3 st).parsed < meas ∧ (gdInner sdi 3 st).error = .ok
      · rw [if_pos hcond]
        rw [ih (request + 1) (gdInner sdi 3 st) (gdInner_wrong_rest sdi 3 st hw)]
        exact gdInner_wrong sdi 3 st hw
      · rw [if_neg hcond]
        exact gdInner_wrong sdi 3 st hw

/-- On a wrong-address script `get_data` never succeeds. -/
theorem get_data_wrong (sdi : Sdi12T) (data0 : Nat → DecVal) (status0 : Nat → Byte)
    (meas : Nat) (errIn : ErrNum) (evs : List WireEv) (hw : WrongAddr sdi.addr evs) :
    (get_data sdi data0 status0 meas errIn evs).result = false := by
  unfold get_data gdRun
  have hz : (gdOuter sdi meas 10 (sdi.index + 48)
      { parsed := 0, data := data0, status := memsetMissing meas status0, error := errIn,
        count := 0, rest := evs }).parsed = 0 :=
    gdOuter_wrong sdi meas 10 (sdi.index + 48) _ hw
  rw [if_neg (by rw [hz]; simp)]

/-! ## Behaviour on a script of three identical wrong-address frames -/

/-- `txAttempts` on a script starting with a frame. -/
theorem txAttempts_frame (len : Nat) (f : List Byte) (rest : List WireEv) :
    txAttempts 3 len (WireEv.frame f :: rest) =
      { count := (f.length : Int), err := .ok, buff := f.take len, rest := rest } := rfl

/-- One inner attempt consuming a wrong-address frame. -/
theorem gdStep_frame_wrong (sdi : Sdi12T) (st : GdSt) (f : List Byte) (tail : List WireEv)
    (hf : f ≠ []) (hh : f.headD 0 ≠ sdi.addr)
    (hrest : st.rest = WireEv.frame f :: tail) :
    gdStep sdi st =
      { st with error := .unexpectedAnswer, count := (f.length : Int), rest := tail } := by
  unfold gdStep
  rw [hrest, txAttempts_frame]
  rw [if_pos (by show (0:Int) < (f.length : Int); exact_mod_cast List.length_pos.mpr hf)]
  rw [gdAttempt_wrong _ _ _ _ (by
    rw [headD_take f 84 (by omega)]
    exact fun hx => hh hx.symm)]

/-- The inner loop on a script of exactly `n+1` identical wrong-address
frames consumes them all and ends with `unexpected_answer`. -/
theorem gdInner_rep (sdi : Sdi12T) (f : List Byte) (hf : f ≠ [])
    (hh : f.headD 0 ≠ sdi.addr) : ∀ (n : Nat) (st : GdSt),
    st.rest = List.replicate (n+1) (WireEv.frame f) →
    gdInner sdi (n+1) st =
      { st with error := .unexpectedAnswer, count := (f.length : Int), rest := [] } := by
  intro n
  induction n with
  | zero =>
    intro st hrest
    rw [gdInner]
    rw [gdStep_frame_wrong sdi st f [] hf hh (by rw [hrest]; rfl)]
    rw [if_neg (by simp)]
    rw [gdInner]
  | succ n ih =>
    intro st hrest
    rw [gdInner]
    rw [gdStep_frame_wrong sdi st f (List.replicate (n+1) (WireEv.frame f)) hf hh
      (by rw [hrest]; rfl)]
    rw [if_neg (by simp)]
    exact ih _ rfl

/-- `get_data` on a script of three identical wrong-address frames fails
with `unexpected_answer`. -/
theorem get_data_rep (sdi : Sdi12T) (data0 : Nat → DecVal) (status0 : Nat → Byte)
    (meas : Nat) (errIn : ErrNum) (f : List Byte) (hf : f ≠ [])
    (hh : f.headD 0 ≠ sdi.addr) :
    (get_data sdi data0 status0 meas errIn
        (List.replicate 3 (WireEv.frame f))).result = false ∧
    (get_data sdi data0 status0 meas errIn
        (List.replicate 3 (WireEv.frame f))).error = .unexpectedAnswer := by
  unfold get_data gdRun
  have hin : gdInner sdi 3
      { parsed := 0, data := data0, status := memsetMissing meas status0, error := errIn,
        count := 0, rest := List.replicate 3 (WireEv.frame f) } =
      { parsed := 0, data := data0, status := memsetMissing meas status0,
        error := .unexpectedAnswer, count := (f.length : Int), rest := [] } :=
    gdInner_rep sdi f hf hh 2 _ rfl
  rw [gdOuter]
  by_cases hm : sdi.method = .continuous
  · rw [if_pos hm, hin]
    rw [if_neg (by simp)]
    exact ⟨rfl, rfl⟩
  · rw [if_neg hm]
    rw [if_neg (by rw [hin]; simp)]
    rw [hin]
    rw [if_neg (by simp)]
    exact ⟨rfl, rfl⟩

/-- `change_id` on a script of `n+1` identical wrong-address frames fails
with `unexpected_answer`. -/
theorem change_id_loop_rep (newId : Byte) (f : List Byte) (hf : f ≠ [])
    (hh : f.headD 0 ≠ newId) : ∀ (n : Nat) (e : ErrNum),
    (change_id_loop newId (n+1) e (List.replicate (n+1) (WireEv.frame f))).result = false ∧
    (change_id_loop newId (n+1) e
      (List.replicate (n+1) (WireEv.frame f))).error = .unexpectedAnswer := by
  intro n
  induction n with
  | zero =>
    intro e
    rw [show List.replicate 1 (WireEv.frame f) = [WireEv.frame f] from rfl]
    rw [change_id_loop, txAttempts_frame]
    rw [if_pos (by show (0:Int) < (f.length : Int); exact_mod_cast List.length_pos.mpr hf)]
    rw [if_neg (by
      show ¬(f.take 8).headD 0 = newId
      rw [headD_take f 8 (by omega)]
      exact hh)]
    rw [change_id_loop]
    exact ⟨rfl, rfl⟩
  | succ n ih =>
    intro e
    rw [show List.replicate (n+2) (WireEv.frame f) =
      WireEv.frame f :: List.replicate (n+1) (WireEv.frame f) from rfl]
    rw [change_id_loop, txAttempts_frame]
    rw [if_pos (by show (0:Int) < (f.length : Int); exact_mod_cast List.length_pos.mpr hf)]
    rw [if_neg (by
      show ¬(f.take 8).headD 0 = newId
      rw [headD_take f 8 (by omega)]
      exact hh)]
    exact ih .unexpectedAnswer

/-- `get_info` on a script of `n+1` identical wrong-address frames fails
with `unexpected_answer`. -/
theorem get_info_loop_rep (id : Byte) (len : Nat) (hl : 1 ≤ len) (f : List Byte)
    (hf : f ≠ []) (hh : f.headD 0 ≠ id) : ∀ (n : Nat) (e : ErrNum),
    (get_info_loop id len (n+1) e (List.replicate (n+1) (WireEv.frame f))).result = false ∧
    (get_info_loop id len (n+1) e
      (List.replicate (n+1) (WireEv.frame f))).error = .unexpectedAnswer := by
  intro n
  induction n with
  | zero =>
    intro e
    rw [show List.replicate 1 (WireEv.frame f) = [WireEv.frame f] from rfl]
    rw [get_info_loop, txAttempts_frame]
    rw [if_pos (by show (0:Int) < (f.length : Int); exact_mod_cast List.length_pos.mpr hf)]
    rw [if_pos (by
      show (f.take len).headD 0 ≠ id
      rw [headD_take f len hl]
      exact hh)]
    rw [consCmd_result, consCmd_error, get_info_loop]
    exact ⟨rfl, rfl⟩
  | succ n ih =>
    intro e
    rw [show List.replicate (n+2) (WireEv.frame f) =
      WireEv.frame f :: List.replicate (n+1) (WireEv.frame f) from rfl]
    rw [get_info_loop, txAttempts_frame]
    rw [if_pos (by show (0:Int) < (f.length : Int); exact_mod_cast List.length_pos.mpr hf)]
    rw [if_pos (by
      show (f.take len).headD 0 ≠ id
      rw [headD_take f len hl]
      exact hh)]
    rw [consCmd_result, consCmd_error]
    exact ih .unexpectedAnswer

/-- `start_measurement` on a script of `n+1` identical wrong-address
frames fails with `unexpected_answer`. -/
theorem sm_loop_rep (sdi : Sdi12T) (f : List Byte) (hf : f ≠ [])
    (hh : f.headD 0 ≠ sdi.addr) : ∀ (n : Nat) (e : ErrNum),
    (sm_loop sdi (n+1) e (List.replicate (n+1) (WireEv.frame f))).result = false ∧
    (sm_loop sdi (n+1) e
      (List.replicate (n+1) (WireEv.frame f))).error = .unexpectedAnswer := by
  intro n
  induction n with
  | zero =>
    intro e
    rw [show List.replicate 1 (WireEv.frame f) = [WireEv.frame f] from rfl]
    rw [sm_loop, txAttempts_frame]
    rw [if_pos (by show (0:Int) < (f.length : Int); exact_mod_cast List.length_pos.mpr hf)]
    rw [if_pos (by
      left
      show sdi.addr ≠ (f.take 32).headD 0
      rw [headD_take f 32 (by omega)]
      exact fun hx => hh hx.symm)]
    rw [sm_loop]
    exact ⟨rfl, rfl⟩
  | succ n ih =>
    intro e
    rw [show List.replicate (n+2) (WireEv.frame f) =
      WireEv.frame f :: List.replicate (n+1) (WireEv.frame f) from rfl]
    rw [sm_loop, txAttempts_frame]
    rw [if_pos (by show (0:Int) < (f.length : Int); exact_mod_cast List.length_pos.mpr hf)]
    rw [if_pos (by
      left
      show sdi.addr ≠ (f.take 32).headD 0
      rw [headD_take f 32 (by omega)]
      exact fun hx => hh hx.symm)]
    exact ih .unexpectedAnswer

/-- On a nice script a failed `get_data` surfaces a non-ok error. -/
theorem get_data_false_err (sdi : Sdi12T) (data0 : Nat → DecVal) (status0 : Nat → Byte)
    (meas : Nat) (errIn : ErrNum) (evs : List WireEv) (hn : NiceEvs evs)
    (h : (get_data sdi data0 status0 meas errIn evs).result = false) :
    (get_data sdi data0 status0 meas errIn evs).error ≠ .ok := by
  unfold get_data at h ⊢
  split at h
  · exact absurd h (by simp)
  · next hne =>
    rw [if_neg hne]
    simp only
    intro hok
    unfold gdRun at hne hok
    have hpr : (0 : Nat) < (gdOuter sdi meas 10 (sdi.index + 48)
        { parsed := 0, data := data0, status := memsetMissing meas status0, error := errIn,
          count := 0, rest := evs }).parsed :=
      gdOuter_ok_progress sdi meas 9 (sdi.index + 48)
        { parsed := 0, data := data0, status := memsetMissing meas status0, error := errIn,
          count := 0, rest := evs } hn hok
    omega

/-! ## Claim theorems -/

/-- C4: in every call to `transaction`, a break is transmitted if and only
if the command's first byte (the target address) differs from the recorded
`last_sdi_addr_` or more than 85 ms elapsed since `last_sdi_time_`; in
particular, a bus idle for at least 86 ms before the next transaction
forces a break. -/
theorem c4_break_condition (bus : Bus) (now : Nat) (cmd : List Byte) (len : Nat)
    (evs : List WireEv) :
    ((transaction bus now cmd len evs).breakSent = true ↔
      (cmd.headD 0 ≠ bus.lastAddr ∨ 85 < now - bus.lastTime)) ∧
    (86 ≤ now - bus.lastTime → (transaction bus now cmd len evs).breakSent = true) := by
  have hb : (transaction bus now cmd len evs).breakSent =
      (decide (bus.lastAddr ≠ cmd.headD 0) || decide (85 < now - bus.lastTime)) := rfl
  refine ⟨?_, ?_⟩
  · rw [hb]
    simp only [Bool.or_eq_true, decide_eq_true_eq]
    constructor
    · rintro (h | h)
      · exact Or.inl (fun hx => h hx.symm)
      · exact Or.inr h
    · rintro (h | h)
      · exact Or.inl (fun hx => h hx.symm)
      · exact Or.inr h
  · intro h
    rw [hb]
    simp only [Bool.or_eq_true, decide_eq_true_eq]
    exact Or.inr (by omega)

/-- Witness for C4 at a concrete bus state: same address, idle 86 ms. -/
theorem c4_break_condition_witness :
    (transaction { lastAddr := 48, lastTime := 14 } 100 [48, 73, 33] 40 []).breakSent = true :=
  (c4_break_condition { lastAddr := 48, lastTime := 14 } 100 [48, 73, 33] 40 []).2
    (by decide)

/-- C9: whenever the collector services a due concurrent slot, the slot's
address is always cleared to 0 (freeing it) regardless of whether the D0
collection succeeded, and the user callback is invoked iff the collection
succeeded and a callback is present. -/
theorem c9_collect_clears_slot (slot : Slot) (data0 : Nat → DecVal) (status0 : Nat → Byte)
    (evs : List WireEv) :
    (collectService slot data0 status0 evs).slot.sdih.addr = 0 ∧
    ((collectService slot data0 status0 evs).cbInvoked = true ↔
      (collectService slot data0 status0 evs).gdSuccess = true ∧ slot.hasCb = true) := by
  refine ⟨rfl, ?_⟩
  unfold collectService
  simp only
  by_cases hg : (get_data { slot.sdih with method := .data } data0 status0
      slot.dhCount .ok evs).result = true
  · simp [hg]
  · simp [hg]

/-- Witness for C9 at a concrete failing collection (empty wire script):
the slot is freed and no callback runs. -/
theorem c9_collect_clears_slot_witness :
    (collectService
        { dhCount := 2, hasCb := true,
          sdih := { addr := 48, method := .concurrent, index := 0, use_crc := false },
          deadline := 5 } (fun _ => ({ num := 0, exp := 0 } : DecVal)) (fun _ => 7) []).slot.sdih.addr = 0 ∧
    ((collectService
        { dhCount := 2, hasCb := true,
          sdih := { addr := 48, method := .concurrent, index := 0, use_crc := false },
          deadline := 5 } (fun _ => ({ num := 0, exp := 0 } : DecVal)) (fun _ => 7) []).cbInvoked = true ↔
      (collectService
        { dhCount := 2, hasCb := true,
          sdih := { addr := 48, method := .concurrent, index := 0, use_crc := false },
          deadline := 5 } (fun _ => ({ num := 0, exp := 0 } : DecVal)) (fun _ => 7) []).gdSuccess = true ∧ true = true) :=
  c9_collect_clears_slot
    { dhCount := 2, hasCb := true,
      sdih := { addr := 48, method := .concurrent, index := 0, use_crc := false },
      deadline := 5 } (fun _ => ({ num := 0, exp := 0 } : DecVal)) (fun _ => 7) []

/-- C1 (code bug in the v1.5.x parse loop, which lost the
`parsed < measurements` bound the older revision had): a retrieve with
input capacity `data_count = 1` whose sensor announces 3 values and whose
single D0 frame carries three floats parses and stores all three; status
index 2 - past the capacity - is written OK, the third float lands at data
index 2 (as 35/10), and the returned `data_count` is 3 > 1, violating
`count_out ≤ count_in`. -/
theorem c1_retrieve_writes_past_capacity :
    c1handle.data_count = 1 ∧
    (retrieve c1handle true .ok (List.replicate 10 emptySlot) true true true true 0
      c1script).result = true ∧
    (retrieve c1handle true .ok (List.replicate 10 emptySlot) true true true true 0
      c1script).dataCountOut = 3 ∧
    (retrieve c1handle true .ok (List.replicate 10 emptySlot) true true true true 0
      c1script).parsed = 3 ∧
    (retrieve c1handle true .ok (List.replicate 10 emptySlot) true true true true 0
      c1script).status 2 = STATUS_OK ∧
    (retrieve c1handle true .ok (List.replicate 10 emptySlot) true true true true 0
      c1script).data 2 = { num := 35, exp := 1 } := by
  decide

/-- C7: `get_info` with a capacity of at most 36 bytes performs no bus
transaction and fails with `buffer_too_small`; commands reach the bus only
when the capacity exceeds 36, and every issued command is `aI!`. -/
theorem c7_get_info_capacity (id : Byte) (len : Nat) (mutexOk : Bool) (evs : List WireEv) :
    (len ≤ 36 →
      (get_info id len mutexOk evs).result = false ∧
      (get_info id len mutexOk evs).error = .bufferTooSmall ∧
      (get_info id len mutexOk evs).cmds = []) ∧
    ((get_info id len mutexOk evs).cmds ≠ [] → 36 < len) ∧
    (36 < len → mutexOk = true →
      (get_info id len mutexOk evs).cmds ≠ [] ∧
      ∀ c ∈ (get_info id len mutexOk evs).cmds, c = [id, 73, 33]) := by
  refine ⟨?_, ?_, ?_⟩
  · intro hle
    unfold get_info
    rw [if_neg (by omega)]
    exact ⟨rfl, rfl, rfl⟩
  · intro hne
    by_contra hlen
    push_neg at hlen
    apply hne
    unfold get_info
    rw [if_neg (by omega)]
  · intro hlen hm
    subst hm
    unfold get_info
    rw [if_pos hlen, if_pos rfl]
    exact ⟨(get_info_loop_cmds id len 3 .ok evs).2 (by omega),
      (get_info_loop_cmds id len 3 .ok evs).1⟩

/-- Witness for C7 at a 36-byte buffer and at a 37-byte buffer. -/
theorem c7_get_info_capacity_witness :
    ((get_info 48 36 true []).result = false ∧
      (get_info 48 36 true []).error = .bufferTooSmall ∧
      (get_info 48 36 true []).cmds = []) ∧
    ((get_info 48 37 true []).cmds ≠ [] ∧
      ∀ c ∈ (get_info 48 37 true []).cmds, c = [48, 73, 33]) :=
  ⟨(c7_get_info_capacity 48 36 true []).1 (by decide),
    (c7_get_info_capacity 48 37 true []).2.2 (by decide) rfl⟩

set_option maxRecDepth 4000 in
/-- C3: `calc_crc` matches the CRC-16-IBM check value (reflected
polynomial 0xA001, initial value 0, check value 0xBB3D over "123456789"),
and a CRC-requested data response whose address matches is rejected with
`crc_error` if and only if the 16-bit value reassembled from its three CRC
characters (each masked with 0x3F, first contributing bits 15..12, second
bits 11..6, third bits 5..0, reassembled as a `uint16_t`) differs from
`calc_crc (0, response, n-5)`, the CRC over the response excluding the CRC
characters and the CR LF terminator. -/
theorem c3_crc_check :
    calc_crc 0 [49, 50, 51, 52, 53, 54, 55, 56, 57] = 0xBB3D ∧
    ∀ (sdi : Sdi12T) (buff : List Byte) (st : GdSt), sdi.use_crc = true →
      buff.headD 0 = sdi.addr → 6 ≤ buff.length → st.error = .ok →
      ((gdAttempt sdi buff buff.length st).error = .crcError ↔
        incoming_crc buff buff.length ≠ calc_crc 0 (buff.take (buff.length - 5))) := by
  refine ⟨by decide, ?_⟩
  intro sdi buff st hcrc hhead hlen herr
  unfold gdAttempt
  rw [if_neg (by
    rintro (hx | hx)
    · exact hx hhead.symm
    · omega)]
  by_cases hx : incoming_crc buff buff.length = calc_crc 0 (buff.take (buff.length - 5))
  · rw [if_neg (by rintro ⟨-, hne⟩; exact hne hx)]
    constructor
    · intro hE
      exfalso
      have hge : (gdParse sdi buff buff.length st).error =
          (parseLoop ((gdPayload sdi buff buff.length).length + 1)
            (gdPayload sdi buff buff.length) st.toPSt).error := rfl
      rcases parseLoop_error ((gdPayload sdi buff buff.length).length + 1)
          (gdPayload sdi buff buff.length) st.toPSt with he | he
      · rw [hge, he] at hE
        have : st.error = .crcError := hE
        rw [herr] at this
        cases this
      · rw [hge, he] at hE
        cases hE
    · intro hR
      exact absurd hx hR
  · rw [if_pos ⟨hcrc, hx⟩]
    exact ⟨fun _ => hx, fun _ => rfl⟩

/-- Witness for C3 at the concrete CRC-valid frame `0+1.5` + CRC `IcE` +
CR LF. -/
theorem c3_crc_check_witness :
    ((gdAttempt { addr := 48, method := .data, index := 0, use_crc := true }
        [48, 43, 49, 46, 53, 73, 99, 69, 13, 10] 10
        { parsed := 0, data := fun _ => ({ num := 0, exp := 0 } : DecVal), status := fun _ => 1, error := .ok,
          count := 10, rest := [] }).error = .crcError ↔
      incoming_crc [48, 43, 49, 46, 53, 73, 99, 69, 13, 10] 10 ≠
        calc_crc 0 ([48, 43, 49, 46, 53, 73, 99, 69, 13, 10].take 5)) :=
  c3_crc_check.2 { addr := 48, method := .data, index := 0, use_crc := true }
    [48, 43, 49, 46, 53, 73, 99, 69, 13, 10]
    { parsed := 0, data := fun _ => ({ num := 0, exp := 0 } : DecVal), status := fun _ => 1, error := .ok,
      count := 10, rest := [] } rfl rfl (by decide) rfl

/-- Replacing one entry by an element compatible with every entry of the
list preserves pairwise compatibility. -/
theorem pairwiseSet {α : Type} {R : α → α → Prop} :
    ∀ (l : List α) (x : α), (∀ b ∈ l, R x b ∧ R b x) → ∀ (i : Nat), l.Pairwise R →
    (l.set i x).Pairwise R := by
  intro l
  induction l with
  | nil =>
    intro x _ i h
    simpa using h
  | cons a t ih =>
    intro x hx i h
    rcases List.pairwise_cons.mp h with ⟨ha, ht⟩
    cases i with
    | zero =>
      simp only [List.set]
      exact List.pairwise_cons.mpr ⟨fun b hb => (hx b (List.mem_cons_of_mem a hb)).1, ht⟩
    | succ i =>
      simp only [List.set]
      refine List.pairwise_cons.mpr
        ⟨?_, ih x (fun b hb => hx b (List.mem_cons_of_mem a hb)) i ht⟩
      intro b hb
      rcases List.mem_or_eq_of_mem_set hb with h1 | h2
      · exact ha b h1
      · subst h2
        exact (hx a (List.mem_cons_self a t)).2

/-- C8: enqueueing a concurrent request whose address is already present
in a slot returns false with `sensor_busy` and leaves the table unchanged;
address uniqueness of populated slots is preserved both by
`retrieve_concurrent` and by the collector's slot clearing. -/
theorem c8_table_uniqueness :
    (∀ (h : Handle) (errIn : ErrNum) (msgs : List Slot) (semPostOk : Bool) (now : Nat)
        (evs : List WireEv), (∃ s ∈ msgs, s.sdih.addr = h.sdi.addr) →
      (retrieve_concurrent h errIn msgs semPostOk now evs).result = false ∧
      (retrieve_concurrent h errIn msgs semPostOk now evs).error = .sensorBusy ∧
      (retrieve_concurrent h errIn msgs semPostOk now evs).msgs = msgs) ∧
    (∀ (h : Handle) (errIn : ErrNum) (msgs : List Slot) (semPostOk : Bool) (now : Nat)
        (evs : List WireEv), AddrUnique msgs →
      AddrUnique (retrieve_concurrent h errIn msgs semPostOk now evs).msgs) ∧
    (∀ (slot : Slot) (data0 : Nat → DecVal) (status0 : Nat → Byte) (evs : List WireEv)
        (msgs : List Slot) (i : Nat), AddrUnique msgs →
      AddrUnique (msgs.set i (collectService slot data0 status0 evs).slot)) := by
  refine ⟨?_, ?_, ?_⟩
  · rintro h errIn msgs semPostOk now evs ⟨s, hs, ha⟩
    have hany : msgs.any (fun s => s.sdih.addr == h.sdi.addr) = true :=
      List.any_eq_true.mpr ⟨s, hs, by simp [ha]⟩
    unfold retrieve_concurrent
    rw [if_pos hany]
    exact ⟨rfl, rfl, rfl⟩
  · intro h errIn msgs semPostOk now evs hu
    unfold retrieve_concurrent
    by_cases hany : msgs.any (fun s => s.sdih.addr == h.sdi.addr) = true
    · rw [if_pos hany]
      exact hu
    · rw [if_neg hany]
      cases hidx : msgs.findIdx? (fun s => s.sdih.addr == 0) with
      | none =>
        simp only [hidx]
        exact hu
      | some i =>
        simp only [hidx]
        have hcompat : ∀ b ∈ msgs, SlotOk (rcSlot h errIn now evs) b ∧
            SlotOk b (rcSlot h errIn now evs) := by
          intro b hb
          have hbne : b.sdih.addr ≠ h.sdi.addr := by
            intro hEq
            exact hany (List.any_eq_true.mpr ⟨b, hb, by simp [hEq]⟩)
          exact ⟨fun _ _ hx => hbne hx.symm, fun _ _ hx => hbne hx⟩
        by_cases hsm : (start_measurement h.sdi errIn evs).result = true
        · rw [if_pos hsm]
          by_cases hsem : semPostOk = true
          · rw [if_pos hsem]
            exact pairwiseSet msgs (rcSlot h errIn now evs) hcompat i hu
          · rw [if_neg hsem]
            exact pairwiseSet msgs (rcSlot h errIn now evs) hcompat i hu
        · rw [if_neg hsm]
          exact hu
  · intro slot data0 status0 evs msgs i hu
    refine pairwiseSet msgs (collectService slot data0 status0 evs).slot ?_ i hu
    intro b _
    constructor
    · intro h0
      exact absurd rfl h0
    · intro _ h0
      exact absurd rfl h0

/-- Witness for C8: an enqueue for an address already in the table is
rejected with `sensor_busy` and the table is untouched. -/
theorem c8_table_uniqueness_witness :
    (retrieve_concurrent c8handle .ok [c8slot, emptySlot] true 0 []).result = false ∧
    (retrieve_concurrent c8handle .ok [c8slot, emptySlot] true 0 []).error = .sensorBusy ∧
    (retrieve_concurrent c8handle .ok [c8slot, emptySlot] true 0 []).msgs =
      [c8slot, emptySlot] :=
  c8_table_uniqueness.1 c8handle .ok [c8slot, emptySlot] true 0 []
    ⟨c8slot, by simp, rfl⟩

/-- A successful `start_measurement` leaves the ok error record. -/
theorem start_measurement_true_err (sdi : Sdi12T) (errIn : ErrNum) (evs : List WireEv)
    (h : (start_measurement sdi errIn evs).result = true) :
    (start_measurement sdi errIn evs).error = .ok := by
  unfold start_measurement at h ⊢
  by_cases hk : sdi.index < 10
  · rw [if_pos hk] at h ⊢
    exact sm_loop_true_err sdi 3 errIn evs h
  · rw [if_neg hk] at h
    exact absurd h (by simp)

/-- On a nice script a failed `start_measurement` surfaces a non-ok
error. -/
theorem start_measurement_false_err (sdi : Sdi12T) (errIn : ErrNum) (evs : List WireEv)
    (hn : NiceEvs evs) (h : (start_measurement sdi errIn evs).result = false) :
    (start_measurement sdi errIn evs).error ≠ .ok := by
  unfold start_measurement at h ⊢
  by_cases hk : sdi.index < 10
  · rw [if_pos hk] at h ⊢
    exact sm_loop_false_err sdi 3 errIn evs hn (Or.inl (by omega)) h
  · rw [if_neg hk]
    simp

/-- A failed `wait_for_service_request` records `tty_attr`. -/
theorem wait_for_service_request_false_err (sdi : Sdi12T) (getOk set1Ok set2Ok : Bool)
    (h : (wait_for_service_request sdi getOk set1Ok set2Ok).1 = false) :
    (wait_for_service_request sdi getOk set1Ok set2Ok).2 = .ttyAttr := by
  unfold wait_for_service_request at h ⊢
  by_cases hc : sdi.method = .concurrent
  · rw [if_pos hc] at h
    exact absurd h (by simp)
  · rw [if_neg hc] at h ⊢
    cases getOk <;> cases set1Ok <;> cases set2Ok <;> simp_all

/-- The tail of `retrieve` succeeds iff it leaves the ok error record. -/
theorem retrievePhase2_iff (h : Handle) (status1 : Nat → Byte) (measAnn : Nat) (sf : Bool)
    (msgs : List Slot) (errCur : ErrNum) (evs : List WireEv) (hn : NiceEvs evs) :
    ((retrievePhase2 h status1 measAnn sf msgs errCur evs).result = true ↔
      (retrievePhase2 h status1 measAnn sf msgs errCur evs).error = .ok) := by
  unfold retrievePhase2
  by_cases hc : ph2m h measAnn ≠ 0 ∨ h.sdi.method = .continuous
  · rw [if_pos hc]
    by_cases hgd : (ph2gd h status1 measAnn errCur evs).result = true
    · rw [if_pos hgd]
      simp
    · rw [if_neg hgd]
      simp only
      have hgdf : (ph2gd h status1 measAnn errCur evs).result = false := by
        revert hgd
        cases (ph2gd h status1 measAnn errCur evs).result <;> simp
      have herr : (ph2gd h status1 measAnn errCur evs).error ≠ .ok :=
        get_data_false_err (ph2sdi h) h.data status1 (ph2m h measAnn) errCur evs hn hgdf
      constructor
      · intro hx
        exact absurd hx (by simp)
      · intro hx
        exact absurd hx herr
  · rw [if_neg hc]
    simp

/-- C2 counterexamples, two false returns that leave the ok error record:
a concurrent `retrieve` whose enqueue fully succeeds (`00013\r\n` accepted,
free slot, semaphore posted) falls out of the do/while with `result` still
false; and a `get_info` whose three buffer-fitting CR-LF-terminated
responses carry an embedded NUL, so the `strncpy` copy stops short of the
terminator, `strstr` finds no CR LF, and the retry loop exhausts without
assigning an error. Both contradict the claim as stated. -/
theorem c2_false_with_ok :
    ((retrieve c2handle true .ok (List.replicate 10 emptySlot) true true true true 0
      [WireEv.frame [48, 48, 48, 49, 51, 13, 10]]).result = false ∧
    (retrieve c2handle true .ok (List.replicate 10 emptySlot) true true true true 0
      [WireEv.frame [48, 48, 48, 49, 51, 13, 10]]).error = .ok) ∧
    ((get_info 48 37 true
        (List.replicate 3 (WireEv.frame [48, 0, 13, 10]))).result = false ∧
    (get_info 48 37 true
        (List.replicate 3 (WireEv.frame [48, 0, 13, 10]))).error = .ok) := by decide

/-- C2 (amended): every facade call that acquires the bus returns true iff
it leaves the ok error record — for `open` unconditionally, for `get_info`
on buffer-fitting, NUL-free, CR-LF-terminated responses (a NUL inside a
frame cuts the `strncpy` copy short of the CR LF, and `get_info` then
exhausts its retries without assigning an error, returning false with the
ok record `transaction` left), for `change_id`, `transparent` and
non-concurrent `retrieve` on nonempty responses — while a concurrent
`retrieve` always returns false, even when its enqueue succeeds and the
error member designates the ok record. -/
theorem c2_error_discipline :
    (∀ inUse openOk getOk setOk : Bool,
      ((dacq_open inUse openOk getOk setOk).1 = true ↔
        (dacq_open inUse openOk getOk setOk).2 = .ok)) ∧
    (∀ (id : Byte) (len : Nat) (mOk : Bool) (evs : List WireEv), InfoEvs len evs →
      ((get_info id len mOk evs).result = true ↔ (get_info id len mOk evs).error = .ok)) ∧
    (∀ (id newId : Byte) (mOk : Bool) (evs : List WireEv), NiceEvs evs →
      ((change_id id newId mOk evs).result = true ↔
        (change_id id newId mOk evs).error = .ok)) ∧
    (∀ (cmd : List Byte) (len : Int) (mOk : Bool) (evs : List WireEv), NiceEvs evs →
      ((transparent cmd len mOk evs).result = true ↔
        (transparent cmd len mOk evs).error = .ok)) ∧
    (∀ (h : Handle) (mOk : Bool) (errIn : ErrNum) (msgs : List Slot)
        (semPostOk getOk set1Ok set2Ok : Bool) (now : Nat) (evs : List WireEv),
      NiceEvs evs → h.sdi.method ≠ .concurrent →
      ((retrieve h mOk errIn msgs semPostOk getOk set1Ok set2Ok now evs).result = true ↔
        (retrieve h mOk errIn msgs semPostOk getOk set1Ok set2Ok now evs).error = .ok)) ∧
    (∀ (h : Handle) (errIn : ErrNum) (msgs : List Slot)
        (semPostOk getOk set1Ok set2Ok : Bool) (now : Nat) (evs : List WireEv),
      h.sdi.method = .concurrent →
      (retrieve h true errIn msgs semPostOk getOk set1Ok set2Ok now evs).result = false) := by
  refine ⟨by decide, ?_, ?_, ?_, ?_, ?_⟩
  · intro id len mOk evs hinfo
    unfold get_info
    by_cases hlen : 36 < len
    · rw [if_pos hlen]
      by_cases hmo : mOk = true
      · rw [if_pos hmo]
        constructor
        · exact get_info_loop_true_err id len 3 .ok evs
        · intro hok
          by_contra hres
          have hres' : (get_info_loop id len 3 .ok evs).result = false := by
            revert hres
            cases (get_info_loop id len 3 .ok evs).result <;> simp
          exact get_info_loop_false_err id len 3 .ok evs hinfo (Or.inl (by omega)) hres' hok
      · rw [if_neg hmo]
        simp
    · rw [if_neg hlen]
      simp
  · intro id newId mOk evs hn
    unfold change_id
    by_cases hmo : mOk = true
    · rw [if_pos hmo]
      constructor
      · exact change_id_loop_true_err newId 3 .ok evs
      · intro hok
        by_contra hres
        have hres' : (change_id_loop newId 3 .ok evs).result = false := by
          revert hres
          cases (change_id_loop newId 3 .ok evs).result <;> simp
        exact change_id_loop_false_err newId 3 .ok evs hn (Or.inl (by omega)) hres' hok
    · rw [if_neg hmo]
      simp
  · intro cmd len mOk evs hn
    unfold transparent
    by_cases hmo : mOk = true
    · rw [if_pos hmo]
      constructor
      · exact transparent_loop_true_err cmd 3 .ok len evs
      · intro hok
        by_contra hres
        have hres' : (transparent_loop cmd 3 .ok len evs).result = false := by
          revert hres
          cases (transparent_loop cmd 3 .ok len evs).result <;> simp
        exact transparent_loop_false_err cmd 3 .ok len evs hn (Or.inl (by omega)) hres' hok
    · rw [if_neg hmo]
      simp
  · intro h mOk errIn msgs semPostOk getOk set1Ok set2Ok now evs hn hm
    unfold retrieve
    by_cases hmo : mOk = true
    · rw [if_pos hmo, if_neg hm]
      by_cases hcont : h.sdi.method = .continuous
      · rw [if_pos hcont]
        exact retrievePhase2_iff h (memsetMissing h.data_count h.status) 0 false msgs errIn
          evs hn
      · rw [if_neg hcont]
        by_cases hsm : (start_measurement h.sdi errIn evs).result = true
        · rw [if_pos hsm]
          by_cases hw : (wait_for_service_request h.sdi getOk set1Ok set2Ok).1 = true
          · rw [if_pos hw]
            exact retrievePhase2_iff h (memsetMissing h.data_count h.status)
              (start_measurement h.sdi errIn evs).meas false msgs
              (wait_for_service_request h.sdi getOk set1Ok set2Ok).2
              (start_measurement h.sdi errIn evs).rest
              (start_measurement_nice h.sdi errIn evs hn)
          · rw [if_neg hw]
            simp only
            have hwf : (wait_for_service_request h.sdi getOk set1Ok set2Ok).1 = false := by
              revert hw
              cases (wait_for_service_request h.sdi getOk set1Ok set2Ok).1 <;> simp
            have hw2 := wait_for_service_request_false_err h.sdi getOk set1Ok set2Ok hwf
            constructor
            · intro hx
              exact absurd hx (by simp)
            · intro hx
              rw [hw2] at hx
              exact absurd hx (by simp)
        · rw [if_neg hsm]
          simp only
          have hsmf : (start_measurement h.sdi errIn evs).result = false := by
            revert hsm
            cases (start_measurement h.sdi errIn evs).result <;> simp
          have herr := start_measurement_false_err h.sdi errIn evs hn hsmf
          constructor
          · intro hx
            exact absurd hx (by simp)
          · intro hx
            exact absurd hx herr
    · rw [if_neg hmo]
      simp
  · intro h errIn msgs semPostOk getOk set1Ok set2Ok now evs hm
    unfold retrieve
    rw [if_pos rfl, if_pos hm]

/-- Witness for C2: a `change_id` on an empty (timed-out) script returns
false and indeed leaves a non-ok error record. -/
theorem c2_error_discipline_witness :
    ((change_id 48 49 true []).result = true ↔ (change_id 48 49 true []).error = .ok) :=
  c2_error_discipline.2.2.1 48 49 true [] (by intro f hf; cases hf)

/-- C6 counterexample: `transparent` is listed among the transaction-based
operations, yet it accepts a response whose first byte (`'1'`) differs from
the request address (`'0'`) and returns success with the ok record. -/
theorem c6_transparent_wrong_address :
    (transparent [48, 73, 33] 20 true [WireEv.frame [49, 86, 13, 10]]).result = true ∧
    (transparent [48, 73, 33] 20 true [WireEv.frame [49, 86, 13, 10]]).out.headD 0 = 49 ∧
    ([48, 73, 33] : List Byte).headD 0 = 48 ∧ (49 : Byte) ≠ 48 ∧
    (transparent [48, 73, 33] 20 true [WireEv.frame [49, 86, 13, 10]]).error = .ok := by
  decide

/-- C6 (amended): the address-checking operations (`get_info`, `change_id`,
`start_measurement`, `get_data`) never succeed when every response carries a
wrong first byte, and on a script of three wrong-address frames (one per
retry) they fail with `unexpected_answer`; `transparent`, however, performs
no address check at all. -/
theorem c6_wrong_address_rejected :
    (∀ (id : Byte) (len : Nat) (mOk : Bool) (evs : List WireEv), WrongAddr id evs →
      (get_info id len mOk evs).result = false) ∧
    (∀ (id newId : Byte) (mOk : Bool) (evs : List WireEv), WrongAddr newId evs →
      (change_id id newId mOk evs).result = false) ∧
    (∀ (sdi : Sdi12T) (errIn : ErrNum) (evs : List WireEv), WrongAddr sdi.addr evs →
      (start_measurement sdi errIn evs).result = false) ∧
    (∀ (sdi : Sdi12T) (data0 : Nat → DecVal) (status0 : Nat → Byte) (meas : Nat)
        (errIn : ErrNum) (evs : List WireEv), WrongAddr sdi.addr evs →
      (get_data sdi data0 status0 meas errIn evs).result = false) ∧
    (∀ (id : Byte) (len : Nat) (f : List Byte), 36 < len → f ≠ [] → f.headD 0 ≠ id →
      (get_info id len true (List.replicate 3 (WireEv.frame f))).result = false ∧
      (get_info id len true (List.replicate 3 (WireEv.frame f))).error =
        .unexpectedAnswer) ∧
    (∀ (id newId : Byte) (f : List Byte), f ≠ [] → f.headD 0 ≠ newId →
      (change_id id newId true (List.replicate 3 (WireEv.frame f))).result = false ∧
      (change_id id newId true (List.replicate 3 (WireEv.frame f))).error =
        .unexpectedAnswer) ∧
    (∀ (sdi : Sdi12T) (errIn : ErrNum) (f : List Byte), sdi.index < 10 → f ≠ [] →
        f.headD 0 ≠ sdi.addr →
      (start_measurement sdi errIn (List.replicate 3 (WireEv.frame f))).result = false ∧
      (start_measurement sdi errIn (List.replicate 3 (WireEv.frame f))).error =
        .unexpectedAnswer) ∧
    (∀ (sdi : Sdi12T) (data0 : Nat → DecVal) (status0 : Nat → Byte) (meas : Nat)
        (errIn : ErrNum) (f : List Byte), f ≠ [] → f.headD 0 ≠ sdi.addr →
      (get_data sdi data0 status0 meas errIn
          (List.replicate 3 (WireEv.frame f))).result = false ∧
      (get_data sdi data0 status0 meas errIn
          (List.replicate 3 (WireEv.frame f))).error = .unexpectedAnswer) := by
  refine ⟨?_, ?_, ?_, ?_, ?_, ?_, ?_, ?_⟩
  · intro id len mOk evs hw
    unfold get_info
    by_cases hlen : 36 < len
    · rw [if_pos hlen]
      by_cases hmo : mOk = true
      · rw [if_pos hmo]
        exact get_info_loop_wrong id len (by omega) 3 .ok evs hw
      · rw [if_neg hmo]
    · rw [if_neg hlen]
  · intro id newId mOk evs hw
    unfold change_id
    by_cases hmo : mOk = true
    · rw [if_pos hmo]
      exact change_id_loop_wrong newId 3 .ok evs hw
    · rw [if_neg hmo]
  · intro sdi errIn evs hw
    unfold start_measurement
    by_cases hk : sdi.index < 10
    · rw [if_pos hk]
      exact sm_loop_wrong sdi 3 errIn evs hw
    · rw [if_neg hk]
  · intro sdi data0 status0 meas errIn evs hw
    exact get_data_wrong sdi data0 status0 meas errIn evs hw
  · intro id len f hlen hf hh
    unfold get_info
    rw [if_pos hlen, if_pos rfl]
    exact get_info_loop_rep id len (by omega) f hf hh 2 .ok
  · intro id newId f hf hh
    unfold change_id
    rw [if_pos rfl]
    exact change_id_loop_rep newId f hf hh 2 .ok
  · intro sdi errIn f hk hf hh
    unfold start_measurement
    rw [if_pos hk]
    exact sm_loop_rep sdi f hf hh 2 errIn
  · intro sdi data0 status0 meas errIn f hf hh
    exact get_data_rep sdi data0 status0 meas errIn f hf hh

/-- Witness for C6: three identical wrong-address data frames make
`get_data` fail with `unexpected_answer`. -/
theorem c6_wrong_address_rejected_witness :
    (get_data { addr := 48, method := .measure, index := 0, use_crc := false }
        (fun _ => { num := 0, exp := 0 }) (fun _ => 0) 3 .ok
        (List.replicate 3 (WireEv.frame [49, 13, 10]))).result = false ∧
    (get_data { addr := 48, method := .measure, index := 0, use_crc := false }
        (fun _ => { num := 0, exp := 0 }) (fun _ => 0) 3 .ok
        (List.replicate 3 (WireEv.frame [49, 13, 10]))).error = .unexpectedAnswer :=
  c6_wrong_address_rejected.2.2.2.2.2.2.2
    { addr := 48, method := .measure, index := 0, use_crc := false }
    (fun _ => { num := 0, exp := 0 }) (fun _ => 0) 3 .ok [49, 13, 10]
    (by decide) (by decide)

/-- Status layout of the `get_data` call made by `retrieve`: OK below the
parsed count, the memset `STATUS_BIT_MISSING` elsewhere below the
capacity. -/
theorem ph2gd_status (h : Handle) (measAnn : Nat) (errCur : ErrNum) (evs : List WireEv)
    (i : Nat) (hi : i < h.data_count) :
    (ph2gd h (memsetMissing h.data_count h.status) measAnn errCur evs).status i =
      if i < (ph2gd h (memsetMissing h.data_count h.status) measAnn errCur evs).parsed
      then STATUS_OK else STATUS_BIT_MISSING := by
  have hgs : (ph2gd h (memsetMissing h.data_count h.status) measAnn errCur evs).status i =
      if i < (ph2gd h (memsetMissing h.data_count h.status) measAnn errCur evs).parsed
      then STATUS_OK
      else if i < ph2m h measAnn then STATUS_BIT_MISSING
      else memsetMissing h.data_count h.status i :=
    get_data_status (ph2sdi h) h.data (memsetMissing h.data_count h.status)
      (ph2m h measAnn) errCur evs i
  rw [hgs]
  simp only [memsetMissing]
  split_ifs <;> first | rfl | omega

/-- Status layout after the tail of `retrieve`. -/
theorem retrievePhase2_status (h : Handle) (measAnn : Nat) (sf : Bool) (msgs : List Slot)
    (errCur : ErrNum) (evs : List WireEv) (i : Nat) (hi : i < h.data_count) :
    (retrievePhase2 h (memsetMissing h.data_count h.status) measAnn sf msgs
        errCur evs).status i =
      if i < (retrievePhase2 h (memsetMissing h.data_count h.status) measAnn sf msgs
          errCur evs).parsed then STATUS_OK else STATUS_BIT_MISSING := by
  unfold retrievePhase2
  by_cases hc : ph2m h measAnn ≠ 0 ∨ h.sdi.method = .continuous
  · rw [if_pos hc]
    by_cases hgd : (ph2gd h (memsetMissing h.data_count h.status) measAnn errCur
        evs).result = true
    · rw [if_pos hgd]
      exact ph2gd_status h measAnn errCur evs i hi
    · rw [if_neg hgd]
      exact ph2gd_status h measAnn errCur evs i hi
  · rw [if_neg hc]
    simp only
    rw [if_neg (by omega)]
    simp only [memsetMissing]
    rw [if_pos hi]

/-- C5: after every `retrieve` that acquires the mutex, for each index
below the handle's input capacity the status byte is `STATUS_OK` iff a
float value was parsed into that slot during the call (the parsed values
fill a prefix), and `STATUS_BIT_MISSING` otherwise: statuses are
initialised to missing before collection and set to OK exactly on a
successful conversion. -/
theorem c5_status_discipline (h : Handle) (errIn : ErrNum) (msgs : List Slot)
    (semPostOk getOk set1Ok set2Ok : Bool) (now : Nat) (evs : List WireEv)
    (i : Nat) (hi : i < h.data_count) :
    ((retrieve h true errIn msgs semPostOk getOk set1Ok set2Ok now evs).status i =
        STATUS_OK ↔
      i < (retrieve h true errIn msgs semPostOk getOk set1Ok set2Ok now evs).parsed) ∧
    ((retrieve h true errIn msgs semPostOk getOk set1Ok set2Ok now evs).status i =
        STATUS_BIT_MISSING ↔
      ¬ i < (retrieve h true errIn msgs semPostOk getOk set1Ok set2Ok now evs).parsed) := by
  have hkey : (retrieve h true errIn msgs semPostOk getOk set1Ok set2Ok now evs).status i =
      if i < (retrieve h true errIn msgs semPostOk getOk set1Ok set2Ok now evs).parsed
      then STATUS_OK else STATUS_BIT_MISSING := by
    unfold retrieve
    rw [if_pos rfl]
    by_cases hconc : h.sdi.method = .concurrent
    · rw [if_pos hconc]
      simp only
      rw [if_neg (by omega)]
      simp only [memsetMissing]
      rw [if_pos hi]
    · rw [if_neg hconc]
      by_cases hcont : h.sdi.method = .continuous
      · rw [if_pos hcont]
        exact retrievePhase2_status h 0 false msgs errIn evs i hi
      · rw [if_neg hcont]
        by_cases hsm : (start_measurement h.sdi errIn evs).result = true
        · rw [if_pos hsm]
          by_cases hw : (wait_for_service_request h.sdi getOk set1Ok set2Ok).1 = true
          · rw [if_pos hw]
            exact retrievePhase2_status h (start_measurement h.sdi errIn evs).meas false
              msgs (wait_for_service_request h.sdi getOk set1Ok set2Ok).2
              (start_measurement h.sdi errIn evs).rest i hi
          · rw [if_neg hw]
            simp only
            rw [if_neg (by omega)]
            simp only [memsetMissing]
            rw [if_pos hi]
        · rw [if_neg hsm]
          simp only
          rw [if_neg (by omega)]
          simp only [memsetMissing]
          rw [if_pos hi]
  constructor
  · constructor
    · intro hx
      by_contra hlt
      rw [hkey, if_neg hlt] at hx
      exact absurd hx (by decide)
    · intro hlt
      rw [hkey, if_pos hlt]
  · constructor
    · intro hx hlt
      rw [hkey, if_pos hlt] at hx
      exact absurd hx (by decide)
    · intro hlt
      rw [hkey, if_neg hlt]

/-- Witness for C5 at index 0 of a capacity-2 handle. -/
theorem c5_status_discipline_witness :
    (((retrieve c5handle true .ok [] true true true true 0 c5script).status 0 =
        STATUS_OK ↔
      0 < (retrieve c5handle true .ok [] true true true true 0 c5script).parsed) ∧
    ((retrieve c5handle true .ok [] true true true true 0 c5script).status 0 =
        STATUS_BIT_MISSING ↔
      ¬ 0 < (retrieve c5handle true .ok [] true true true true 0 c5script).parsed)) :=
  c5_status_discipline c5handle .ok [] true true true true 0 c5script 0 (by decide)

/-- The callback and `startFailed` bookkeeping of the tail of `retrieve`. -/
theorem retrievePhase2_cb (h : Handle) (status1 : Nat → Byte) (measAnn : Nat) (sf : Bool)
    (msgs : List Slot) (errCur : ErrNum) (evs : List WireEv) :
    (retrievePhase2 h status1 measAnn sf msgs errCur evs).cbCount = cbOnce h ∧
    (retrievePhase2 h status1 measAnn sf msgs errCur evs).startFailed = sf := by
  unfold retrievePhase2
  split_ifs <;> exact ⟨rfl, rfl⟩

/-- C10: a non-concurrent `retrieve` that acquires the bus mutex invokes
the user callback (when present) exactly once, also when it returns false;
and when the call fails in `start_measurement` — before any measurement
header was parsed — it returns false with `data_count` overwritten to 0
while the callback still fires. -/
theorem c10_callback_discipline (h : Handle) (errIn : ErrNum) (msgs : List Slot)
    (semPostOk getOk set1Ok set2Ok : Bool) (now : Nat) (evs : List WireEv)
    (hm : h.sdi.method ≠ .concurrent) :
    ((retrieve h true errIn msgs semPostOk getOk set1Ok set2Ok now evs).cbCount =
      (if h.hasCb then 1 else 0)) ∧
    ((retrieve h true errIn msgs semPostOk getOk set1Ok set2Ok now evs).startFailed =
        true →
      (retrieve h true errIn msgs semPostOk getOk set1Ok set2Ok now evs).result = false ∧
      (retrieve h true errIn msgs semPostOk getOk set1Ok set2Ok now evs).dataCountOut = 0 ∧
      (retrieve h true errIn msgs semPostOk getOk set1Ok set2Ok now evs).cbCount =
        (if h.hasCb then 1 else 0)) := by
  unfold retrieve
  rw [if_pos rfl, if_neg hm]
  by_cases hcont : h.sdi.method = .continuous
  · rw [if_pos hcont]
    obtain ⟨hcb, hsf⟩ := retrievePhase2_cb h (memsetMissing h.data_count h.status) 0 false
      msgs errIn evs
    refine ⟨by rw [hcb]; rfl, ?_⟩
    intro hx
    rw [hsf] at hx
    exact absurd hx (by simp)
  · rw [if_neg hcont]
    by_cases hsm : (start_measurement h.sdi errIn evs).result = true
    · rw [if_pos hsm]
      by_cases hw : (wait_for_service_request h.sdi getOk set1Ok set2Ok).1 = true
      · rw [if_pos hw]
        obtain ⟨hcb, hsf⟩ := retrievePhase2_cb h (memsetMissing h.data_count h.status)
          (start_measurement h.sdi errIn evs).meas false msgs
          (wait_for_service_request h.sdi getOk set1Ok set2Ok).2
          (start_measurement h.sdi errIn evs).rest
        refine ⟨by rw [hcb]; rfl, ?_⟩
        intro hx
        rw [hsf] at hx
        exact absurd hx (by simp)
      · rw [if_neg hw]
        refine ⟨rfl, ?_⟩
        intro hx
        exact absurd hx (by simp)
    · rw [if_neg hsm]
      exact ⟨rfl, fun _ => ⟨rfl, rfl, rfl⟩⟩

/-- Witness for C10: on an empty (timed-out) script the call fails in
`start_measurement`, yet the callback count is 1 and `data_count` is 0. -/
theorem c10_callback_discipline_witness :
    ((retrieve c10handle true .ok [] true true true true 0 []).cbCount =
      (if c10handle.hasCb then 1 else 0)) ∧
    ((retrieve c10handle true .ok [] true true true true 0 []).startFailed = true →
      (retrieve c10handle true .ok [] true true true true 0 []).result = false ∧
      (retrieve c10handle true .ok [] true true true true 0 []).dataCountOut = 0 ∧
      (retrieve c10handle true .ok [] true true true true 0 []).cbCount =
        (if c10handle.hasCb then 1 else 0)) :=
  c10_callback_discipline c10handle .ok [] true true true true 0 [] (by decide)

end Sdi12
